import Mathlib

/-!
Verification of the PayPro payment-provider integration
(`src/paypro.ts` and `src/errors.ts`) against its specification.

The TypeScript source is shallowly embedded: machine words are `Nat`
with explicit reduction `% 2 ^ w`, byte strings are `List Nat`,
fallible code returns `Except`, and the external collaborators
(the rate source, the observability sink, the HTTP transport) are
injected values recorded as explicit effects.  Library primitives the
source calls (SHA-256 via node `crypto`, AES-CBC with PKCS#7 padding
via `node-forge`) are embedded by their public standard definitions
(FIPS 180-4 and FIPS 197), since those are the functions the library
computes.
-/

namespace PayPro

/-! ## Bytes, hex and UTF-8 helpers -/

/-- Lowercase hexadecimal digit for a value below 16. -/
def hexDigitLower (n : Nat) : Char :=
  if n < 10 then Char.ofNat (48 + n) else Char.ofNat (87 + n)

/-- Uppercase hexadecimal digit for a value below 16. -/
def hexDigitUpper (n : Nat) : Char :=
  if n < 10 then Char.ofNat (48 + n) else Char.ofNat (55 + n)

/-- UTF-8 encoding of a single character, as a list of byte values. -/
def utf8Bytes (c : Char) : List Nat :=
  let n := c.toNat
  if n < 0x80 then [n]
  else if n < 0x800 then
    [0xC0 ||| (n >>> 6), 0x80 ||| (n &&& 0x3F)]
  else if n < 0x10000 then
    [0xE0 ||| (n >>> 12), 0x80 ||| ((n >>> 6) &&& 0x3F), 0x80 ||| (n &&& 0x3F)]
  else
    [0xF0 ||| (n >>> 18), 0x80 ||| ((n >>> 12) &&& 0x3F),
     0x80 ||| ((n >>> 6) &&& 0x3F), 0x80 ||| (n &&& 0x3F)]

/-- UTF-8 byte sequence of a string. -/
def strBytes (s : String) : List Nat := s.data.flatMap utf8Bytes

/-! ## SHA-256 (FIPS 180-4), over `Nat` words reduced modulo `2 ^ 32`.

This embeds the `crypto.createHash('sha256')...digest('hex')` pipeline
used by `validatePayProWebhook`. -/

/-- Right rotation of a 32-bit word. -/
def rotr32 (x n : Nat) : Nat :=
  ((x >>> n) ||| (x <<< (32 - n))) % 2 ^ 32

/-- The SHA-256 round constants (decimal, FIPS 180-4 section 4.2.2). -/
def shaK : List Nat :=
  [1116352408, 1899447441, 3049323471, 3921009573, 961987163, 1508970993,
   2453635748, 2870763221, 3624381080, 310598401, 607225278, 1426881987,
   1925078388, 2162078206, 2614888103, 3248222580, 3835390401, 4022224774,
   264347078, 604807628, 770255983, 1249150122, 1555081692, 1996064986,
   2554220882, 2821834349, 2952996808, 3210313671, 3336571891, 3584528711,
   113926993, 338241895, 666307205, 773529912, 1294757372, 1396182291,
   1695183700, 1986661051, 2177026350, 2456956037, 2730485921, 2820302411,
   3259730800, 3345764771, 3516065817, 3600352804, 4094571909, 275423344,
   430227734, 506948616, 659060556, 883997877, 958139571, 1322822218,
   1537002063, 1747873779, 1955562222, 2024104815, 2227730452, 2361852424,
   2428436474, 2756734187, 3204031479, 3329325298]

/-- The SHA-256 initial hash state. -/
def shaH0 : List Nat :=
  [0x6a09e667, 0xbb67ae85, 0x3c6ef372, 0xa54ff53a,
   0x510e527f, 0x9b05688c, 0x1f83d9ab, 0x5be0cd19]

/-- Big-endian packing of bytes into 32-bit words. -/
def bytesToWords32 : List Nat → List Nat
  | a :: b :: c :: d :: rest =>
    ((a <<< 24) ||| (b <<< 16) ||| (c <<< 8) ||| d) :: bytesToWords32 rest
  | _ => []

/-- SHA-256 message padding: a `0x80` byte, zeros to 56 mod 64, then the
bit length as a 64-bit big-endian integer. -/
def sha256Pad (msg : List Nat) : List Nat :=
  let L := msg.length
  let zeros := (120 - ((L + 1) % 64)) % 64
  let bits := L * 8
  msg ++ [0x80] ++ List.replicate zeros 0 ++
    [(bits >>> 56) % 256, (bits >>> 48) % 256, (bits >>> 40) % 256,
     (bits >>> 32) % 256, (bits >>> 24) % 256, (bits >>> 16) % 256,
     (bits >>> 8) % 256, bits % 256]

/-- Splits a byte list into 64-byte chunks (fuelled structural recursion;
the fuel is always sufficient at `l.length`). -/
def chunks64Aux : Nat → List Nat → List (List Nat)
  | 0, _ => []
  | _, [] => []
  | fuel + 1, l => l.take 64 :: chunks64Aux fuel (l.drop 64)

/-- Splits a byte list into 64-byte chunks. -/
def chunks64 (l : List Nat) : List (List Nat) := chunks64Aux l.length l

/-- Extends the 16-word message block to the 64-word schedule. -/
def shaSchedule : Nat → List Nat → List Nat
  | 0, w => w
  | fuel + 1, w =>
    let t := w.length
    let w15 := w.getD (t - 15) 0
    let w2 := w.getD (t - 2) 0
    let s0 := rotr32 w15 7 ^^^ rotr32 w15 18 ^^^ (w15 >>> 3)
    let s1 := rotr32 w2 17 ^^^ rotr32 w2 19 ^^^ (w2 >>> 10)
    let wn := (w.getD (t - 16) 0 + s0 + w.getD (t - 7) 0 + s1) % 2 ^ 32
    shaSchedule fuel (w ++ [wn])

/-- One SHA-256 compression round, on the working state `(a,…,h)`,
consuming the already-summed value `k[i] + w[i]`. -/
def shaRound (st : Nat × Nat × Nat × Nat × Nat × Nat × Nat × Nat) (kw : Nat) :
    Nat × Nat × Nat × Nat × Nat × Nat × Nat × Nat :=
  let (a, b, c, d, e, f, g, h) := st
  let S1 := rotr32 e 6 ^^^ rotr32 e 11 ^^^ rotr32 e 25
  let ch := (e &&& f) ^^^ ((e ^^^ 0xFFFFFFFF) &&& g)
  let temp1 := (h + S1 + ch + kw) % 2 ^ 32
  let S0 := rotr32 a 2 ^^^ rotr32 a 13 ^^^ rotr32 a 22
  let maj := (a &&& b) ^^^ (a &&& c) ^^^ (b &&& c)
  let temp2 := (S0 + maj) % 2 ^ 32
  ((temp1 + temp2) % 2 ^ 32, a, b, c, (d + temp1) % 2 ^ 32, e, f, g)

/-- SHA-256 compression of one 64-byte block into the hash state. -/
def shaCompress (hs : List Nat) (block : List Nat) : List Nat :=
  let w := shaSchedule 48 (bytesToWords32 block)
  let kw := List.zipWith (fun k wi => (k + wi) % 2 ^ 32) shaK w
  let st0 := (hs.getD 0 0, hs.getD 1 0, hs.getD 2 0, hs.getD 3 0,
              hs.getD 4 0, hs.getD 5 0, hs.getD 6 0, hs.getD 7 0)
  let (a, b, c, d, e, f, g, h) := kw.foldl shaRound st0
  List.zipWith (fun x y => (x + y) % 2 ^ 32) hs [a, b, c, d, e, f, g, h]

/-- The eight hexadecimal digits of a 32-bit word, most significant first. -/
def word32HexChars (w : Nat) : List Char :=
  [hexDigitLower ((w >>> 28) % 16), hexDigitLower ((w >>> 24) % 16),
   hexDigitLower ((w >>> 20) % 16), hexDigitLower ((w >>> 16) % 16),
   hexDigitLower ((w >>> 12) % 16), hexDigitLower ((w >>> 8) % 16),
   hexDigitLower ((w >>> 4) % 16), hexDigitLower (w % 16)]

/-- Hex-encoded SHA-256 digest of a byte list. -/
def sha256HexBytes (msg : List Nat) : String :=
  String.mk ((((chunks64 (sha256Pad msg)).foldl shaCompress shaH0).flatMap
    word32HexChars))

/-- Hex-encoded SHA-256 digest of a string, as
`crypto.createHash('sha256').update(s).digest('hex')` computes it. -/
def sha256Hex (s : String) : String := sha256HexBytes (strBytes s)

/-! ## `StatusError` and `catchErrors` (src/api/src/errors.ts) -/

/-- An error carrying an externally visible HTTP status code
(`StatusError` in `errors.ts`). -/
structure StatusError where
  statusCode : Nat
  message : String
deriving Repr, DecidableEq

/-- A thrown JavaScript value as `catchErrors` distinguishes it: either a
`StatusError` or any other (generic) error. -/
inductive JsError where
  | status : StatusError → JsError
  | generic : String → JsError
deriving Repr, DecidableEq

/-- An API gateway response as produced by `catchErrors`. -/
structure ApiResponse where
  statusCode : Nat
  headers : List (String × String)
  body : String
deriving Repr, DecidableEq

/-- The error branch of `catchErrors`: a `StatusError` becomes a response
whose status is its code and whose body is its message verbatim (with a
`no-store` cache header); any other error is re-thrown. -/
def catchErrors (handlerOutcome : Except JsError ApiResponse) :
    Except JsError ApiResponse :=
  match handlerOutcome with
  | .ok r => .ok r
  | .error (.status e) =>
    .ok ⟨e.statusCode, [("Cache-Control", "no-store")], e.message⟩
  | .error (.generic m) => .error (.generic m)

/-! ## The webhook payload and `validatePayProWebhook` -/

/-- The inbound PayPro IPN payload (`PayProWebhookData` in the source).
All fields arrive as strings in the form-encoded POST body; the
enumerated fields are embedded as their string values. -/
structure PayProWebhookData where
  IPN_TYPE_NAME : String
  HASH : String
  SIGNATURE : String
  TEST_MODE : String
  CUSTOMER_EMAIL : String
  PRODUCT_ID : String
  ORDER_ITEM_SKU : String
  PRODUCT_QUANTITY : String
  ORDER_ITEM_TOTAL_AMOUNT : String
  CUSTOMER_ID : String
  SUBSCRIPTION_ID : String
  ORDER_PLACED_TIME_UTC : String
  INVOICE_LINK : Option String
  SUBSCRIPTION_STATUS_NAME : String
  SUBSCRIPTION_NEXT_CHARGE_DATE : String
  SUBSCRIPTION_RENEWAL_TYPE : String
  ORDER_ID : String
  ORDER_STATUS : String
  ORDER_TOTAL_AMOUNT : String
  ORDER_CURRENCY_CODE : String
  ORDER_CUSTOM_FIELDS : String
deriving Repr, DecidableEq

/-- The string whose digest is compared against the supplied signature:
the exact concatenation (no separators) the source builds with
`[...].join('')`.  `validationKey` is the `PAYPRO_IPN_VALIDATION_KEY`
environment secret. -/
def webhookSigningString (validationKey : String) (data : PayProWebhookData) :
    String :=
  data.ORDER_ID ++ data.ORDER_STATUS ++ data.ORDER_TOTAL_AMOUNT ++
    data.CUSTOMER_EMAIL ++ validationKey ++ data.TEST_MODE ++
    data.IPN_TYPE_NAME

/-- The `validatePayProWebhook` gate: recomputes the expected signature
and throws a `StatusError 403` carrying both signatures in its message on
any mismatch; returns normally otherwise. -/
def validatePayProWebhook (validationKey : String) (data : PayProWebhookData) :
    Except StatusError Unit :=
  let expectedSignature := sha256Hex (webhookSigningString validationKey data)
  if data.SIGNATURE ≠ expectedSignature then
    .error ⟨403, "PayPro IPN signature did not match - expected " ++
      expectedSignature ++ " but received " ++ data.SIGNATURE⟩
  else
    .ok ()

/-! ## `parsePayProCustomFields`

The source drives the global JavaScript regex
`/x-(\w+)=(.*?)(?=$|,x-\w+)/g` with repeated `exec` calls.  The regex
semantics relevant to this fixed pattern are embedded directly:
`\w` is `[A-Za-z0-9_]`, the lazy group `.*?` grows one character at a
time (and `.` never matches a line terminator), the lookahead
`(?=$|,x-\w+)` stops it, and on failure at one start position the search
advances to the next. -/

/-- A JavaScript `\w` word character: ASCII letter, digit or underscore. -/
def isWordChar (c : Char) : Bool :=
  (65 ≤ c.toNat && c.toNat ≤ 90) || (97 ≤ c.toNat && c.toNat ≤ 122) ||
    (48 ≤ c.toNat && c.toNat ≤ 57) || c = '_'

/-- A JavaScript line terminator, which `.` does not match. -/
def isLineTerm (c : Char) : Bool :=
  c.toNat = 10 || c.toNat = 13 || c.toNat = 0x2028 || c.toNat = 0x2029

/-- The lookahead alternative `,x-\w+` of the custom-field regex: a
comma, the literal `x-`, then at least one word character. -/
def customFieldStop : List Char → Bool
  | a :: b :: c :: d :: _ => a = ',' && b = 'x' && c = '-' && isWordChar d
  | _ => false

/-- The lazy group `(.*?)(?=$|,x-\w+)`: at each position first try the
lookahead (end of input, or `,x-\w+`), else consume one character with
`.`.  Returns the captured value and the unconsumed remainder, or `none`
when a line terminator blocks `.` before any stopping point. -/
def scanValue : List Char → Option (List Char × List Char)
  | [] => some ([], [])
  | c :: rest =>
    if customFieldStop (c :: rest) then some ([], c :: rest)
    else if isLineTerm c then none
    else
      match scanValue rest with
      | some (v, r) => some (c :: v, r)
      | none => none

/-- Attempts the whole pattern `x-(\w+)=(.*?)(?=$|,x-\w+)` anchored at
the current position.  The greedy `\w+` followed by the literal `=` is
taken as the maximal word-character run with `=` required next, which is
equivalent since `=` is not a word character, so no shorter run can be
followed by `=`. -/
def tryMatchAt : List Char → Option (List Char × List Char × List Char)
  | a :: b :: rest =>
    if a = 'x' ∧ b = '-' then
      let key := rest.takeWhile isWordChar
      if key.isEmpty then none
      else
        match rest.dropWhile isWordChar with
        | c :: afterEq =>
          if c = '=' then
            match scanValue afterEq with
            | some (v, r) => some (key, v, r)
            | none => none
          else none
        | [] => none
    else none
  | _ => none

/-- One `exec` step of the global regex: the match at the first position
at or after the current one where the pattern succeeds. -/
def findMatch : List Char → Option (List Char × List Char × List Char)
  | [] => none
  | c :: rest =>
    match tryMatchAt (c :: rest) with
    | some m => some m
    | none => findMatch rest

/-- The `while (true) { ... exec ... }` loop, fuelled: every successful
match consumes at least four characters of the remainder, so fuel
`l.length + 1` can never run out. -/
def execLoop : Nat → List Char → List (String × String)
  | 0, _ => []
  | fuel + 1, l =>
    match findMatch l with
    | none => []
    | some (k, v, r) => (String.mk k, String.mk v) :: execLoop fuel r

/-- JavaScript object property assignment
`result[fieldName] = fieldValue`: an existing key's value is overwritten
in place, a new key is appended in encounter order. -/
def setField (m : List (String × String)) (k v : String) :
    List (String × String) :=
  if m.any (fun p => p.1 = k) then
    m.map (fun p => if p.1 = k then (k, v) else p)
  else m ++ [(k, v)]

/-- The `parsePayProCustomFields` function: runs the regex loop over the
blob and folds each captured pair into the result object. -/
def parsePayProCustomFields (customFieldsData : String) :
    List (String × String) :=
  (execLoop (customFieldsData.data.length + 1) customFieldsData.data).foldl
    (fun acc kv => setField acc kv.1 kv.2) []

/-! ### The custom-field decoder as the specification words it

A second parser, written from the claim text rather than from the
source, for the refinement comparison: the value is "the shortest run of
characters extending up to, but not including, either end-of-string or
the next occurrence of the marker".  Two marker variants are given: the
one the claim literally states (`,x-<word>=`, with an equals sign) and
the one without the equals sign. -/

/-- Modelled from the claim wording: the field-separator marker
`,x-<word>` — a comma, `x-`, then at least one word character. -/
def specMarker : List Char → Bool
  | a :: b :: c :: d :: _ => a = ',' && b = 'x' && c = '-' && isWordChar d
  | _ => false

/-- Modelled from the claim wording, with the equals sign the claim
includes: the marker `,x-<word>=` — a comma, `x-`, word characters, and
an equals sign. -/
def specMarkerEq : List Char → Bool
  | a :: b :: c :: rest =>
    a = ',' && b = 'x' && c = '-' &&
      !(rest.takeWhile isWordChar).isEmpty &&
      ((rest.dropWhile isWordChar).head? == some '=')
  | _ => false

/-- The number of characters in the shortest run extending up to, but
not including, either end-of-string or the first suffix satisfying the
marker. -/
def firstStopIdx (marker : List Char → Bool) : List Char → Nat
  | [] => 0
  | c :: rest => if marker (c :: rest) then 0 else firstStopIdx marker rest + 1

/-- The spec-side match attempt: a key immediately following an `x-`
prefix, an equals sign, then the shortest-run value up to end-of-string
or the next marker. -/
def specTryMatchAt (marker : List Char → Bool) :
    List Char → Option (List Char × List Char × List Char)
  | a :: b :: rest =>
    if a = 'x' ∧ b = '-' then
      let key := rest.takeWhile isWordChar
      if key.isEmpty then none
      else
        match rest.dropWhile isWordChar with
        | c :: afterEq =>
          if c = '=' then
            let n := firstStopIdx marker afterEq
            some (key, afterEq.take n, afterEq.drop n)
          else none
        | [] => none
    else none
  | _ => none

/-- The spec-side scan for the next field, left to right. -/
def specFindMatch (marker : List Char → Bool) :
    List Char → Option (List Char × List Char × List Char)
  | [] => none
  | c :: rest =>
    match specTryMatchAt marker (c :: rest) with
    | some m => some m
    | none => specFindMatch marker rest

/-- The spec-side field-collection loop (fuelled like `execLoop`). -/
def specExecLoop (marker : List Char → Bool) :
    Nat → List Char → List (String × String)
  | 0, _ => []
  | fuel + 1, l =>
    match specFindMatch marker l with
    | none => []
    | some (k, v, r) => (String.mk k, String.mk v) :: specExecLoop marker fuel r

/-- The custom-field decoder as the (amended) claim words it: marker
`,x-<word>`, later duplicate keys overwriting earlier ones. -/
def specParseCustomFields (s : String) : List (String × String) :=
  (specExecLoop specMarker (s.data.length + 1) s.data).foldl
    (fun acc kv => setField acc kv.1 kv.2) []

/-- The custom-field decoder as the claim literally words it: marker
`,x-<word>=`, with the equals sign. -/
def specParseCustomFieldsEq (s : String) : List (String × String) :=
  (specExecLoop specMarkerEq (s.data.length + 1) s.data).foldl
    (fun acc kv => setField acc kv.1 kv.2) []

/-! ## AES-CBC with PKCS#7 padding (FIPS 197)

This embeds the `node-forge` calls
`forge.aes.createEncryptionCipher(key, 'CBC')` / `cipher.start(iv)` /
`cipher.update(...)` / `cipher.finish()` used by `createCheckout`, and
the matching decryption.  Bytes are `Nat` values below 256; words are
reduced with explicit masks. -/

/-- Doubling in GF(2^8) modulo the AES polynomial `x^8+x^4+x^3+x+1`. -/
def xtime (x : Nat) : Nat :=
  ((x * 2) ^^^ (if x &&& 0x80 = 0 then 0 else 0x1B)) &&& 0xFF

/-- Multiplication by 3 in GF(2^8). -/
def mul3 (x : Nat) : Nat := xtime x ^^^ x

/-- Multiplication by 9 in GF(2^8). -/
def mul9 (x : Nat) : Nat := xtime (xtime (xtime x)) ^^^ x

/-- Multiplication by 11 in GF(2^8). -/
def mul11 (x : Nat) : Nat := xtime (xtime (xtime x)) ^^^ xtime x ^^^ x

/-- Multiplication by 13 in GF(2^8). -/
def mul13 (x : Nat) : Nat := xtime (xtime (xtime x)) ^^^ xtime (xtime x) ^^^ x

/-- Multiplication by 14 in GF(2^8). -/
def mul14 (x : Nat) : Nat :=
  xtime (xtime (xtime x)) ^^^ xtime (xtime x) ^^^ xtime x

/-- The AES S-box. -/
def sboxTable : List Nat :=
  [0x63, 0x7c, 0x77, 0x7b, 0xf2, 0x6b, 0x6f, 0xc5,
   0x30, 0x01, 0x67, 0x2b, 0xfe, 0xd7, 0xab, 0x76,
   0xca, 0x82, 0xc9, 0x7d, 0xfa, 0x59, 0x47, 0xf0,
   0xad, 0xd4, 0xa2, 0xaf, 0x9c, 0xa4, 0x72, 0xc0,
   0xb7, 0xfd, 0x93, 0x26, 0x36, 0x3f, 0xf7, 0xcc,
   0x34, 0xa5, 0xe5, 0xf1, 0x71, 0xd8, 0x31, 0x15,
   0x04, 0xc7, 0x23, 0xc3, 0x18, 0x96, 0x05, 0x9a,
   0x07, 0x12, 0x80, 0xe2, 0xeb, 0x27, 0xb2, 0x75,
   0x09, 0x83, 0x2c, 0x1a, 0x1b, 0x6e, 0x5a, 0xa0,
   0x52, 0x3b, 0xd6, 0xb3, 0x29, 0xe3, 0x2f, 0x84,
   0x53, 0xd1, 0x00, 0xed, 0x20, 0xfc, 0xb1, 0x5b,
   0x6a, 0xcb, 0xbe, 0x39, 0x4a, 0x4c, 0x58, 0xcf,
   0xd0, 0xef, 0xaa, 0xfb, 0x43, 0x4d, 0x33, 0x85,
   0x45, 0xf9, 0x02, 0x7f, 0x50, 0x3c, 0x9f, 0xa8,
   0x51, 0xa3, 0x40, 0x8f, 0x92, 0x9d, 0x38, 0xf5,
   0xbc, 0xb6, 0xda, 0x21, 0x10, 0xff, 0xf3, 0xd2,
   0xcd, 0x0c, 0x13, 0xec, 0x5f, 0x97, 0x44, 0x17,
   0xc4, 0xa7, 0x7e, 0x3d, 0x64, 0x5d, 0x19, 0x73,
   0x60, 0x81, 0x4f, 0xdc, 0x22, 0x2a, 0x90, 0x88,
   0x46, 0xee, 0xb8, 0x14, 0xde, 0x5e, 0x0b, 0xdb,
   0xe0, 0x32, 0x3a, 0x0a, 0x49, 0x06, 0x24, 0x5c,
   0xc2, 0xd3, 0xac, 0x62, 0x91, 0x95, 0xe4, 0x79,
   0xe7, 0xc8, 0x37, 0x6d, 0x8d, 0xd5, 0x4e, 0xa9,
   0x6c, 0x56, 0xf4, 0xea, 0x65, 0x7a, 0xae, 0x08,
   0xba, 0x78, 0x25, 0x2e, 0x1c, 0xa6, 0xb4, 0xc6,
   0xe8, 0xdd, 0x74, 0x1f, 0x4b, 0xbd, 0x8b, 0x8a,
   0x70, 0x3e, 0xb5, 0x66, 0x48, 0x03, 0xf6, 0x0e,
   0x61, 0x35, 0x57, 0xb9, 0x86, 0xc1, 0x1d, 0x9e,
   0xe1, 0xf8, 0x98, 0x11, 0x69, 0xd9, 0x8e, 0x94,
   0x9b, 0x1e, 0x87, 0xe9, 0xce, 0x55, 0x28, 0xdf,
   0x8c, 0xa1, 0x89, 0x0d, 0xbf, 0xe6, 0x42, 0x68,
   0x41, 0x99, 0x2d, 0x0f, 0xb0, 0x54, 0xbb, 0x16]


/-- The AES inverse S-box. -/
def sboxInvTable : List Nat :=
  [0x52, 0x09, 0x6a, 0xd5, 0x30, 0x36, 0xa5, 0x38,
   0xbf, 0x40, 0xa3, 0x9e, 0x81, 0xf3, 0xd7, 0xfb,
   0x7c, 0xe3, 0x39, 0x82, 0x9b, 0x2f, 0xff, 0x87,
   0x34, 0x8e, 0x43, 0x44, 0xc4, 0xde, 0xe9, 0xcb,
   0x54, 0x7b, 0x94, 0x32, 0xa6, 0xc2, 0x23, 0x3d,
   0xee, 0x4c, 0x95, 0x0b, 0x42, 0xfa, 0xc3, 0x4e,
   0x08, 0x2e, 0xa1, 0x66, 0x28, 0xd9, 0x24, 0xb2,
   0x76, 0x5b, 0xa2, 0x49, 0x6d, 0x8b, 0xd1, 0x25,
   0x72, 0xf8, 0xf6, 0x64, 0x86, 0x68, 0x98, 0x16,
   0xd4, 0xa4, 0x5c, 0xcc, 0x5d, 0x65, 0xb6, 0x92,
   0x6c, 0x70, 0x48, 0x50, 0xfd, 0xed, 0xb9, 0xda,
   0x5e, 0x15, 0x46, 0x57, 0xa7, 0x8d, 0x9d, 0x84,
   0x90, 0xd8, 0xab, 0x00, 0x8c, 0xbc, 0xd3, 0x0a,
   0xf7, 0xe4, 0x58, 0x05, 0xb8, 0xb3, 0x45, 0x06,
   0xd0, 0x2c, 0x1e, 0x8f, 0xca, 0x3f, 0x0f, 0x02,
   0xc1, 0xaf, 0xbd, 0x03, 0x01, 0x13, 0x8a, 0x6b,
   0x3a, 0x91, 0x11, 0x41, 0x4f, 0x67, 0xdc, 0xea,
   0x97, 0xf2, 0xcf, 0xce, 0xf0, 0xb4, 0xe6, 0x73,
   0x96, 0xac, 0x74, 0x22, 0xe7, 0xad, 0x35, 0x85,
   0xe2, 0xf9, 0x37, 0xe8, 0x1c, 0x75, 0xdf, 0x6e,
   0x47, 0xf1, 0x1a, 0x71, 0x1d, 0x29, 0xc5, 0x89,
   0x6f, 0xb7, 0x62, 0x0e, 0xaa, 0x18, 0xbe, 0x1b,
   0xfc, 0x56, 0x3e, 0x4b, 0xc6, 0xd2, 0x79, 0x20,
   0x9a, 0xdb, 0xc0, 0xfe, 0x78, 0xcd, 0x5a, 0xf4,
   0x1f, 0xdd, 0xa8, 0x33, 0x88, 0x07, 0xc7, 0x31,
   0xb1, 0x12, 0x10, 0x59, 0x27, 0x80, 0xec, 0x5f,
   0x60, 0x51, 0x7f, 0xa9, 0x19, 0xb5, 0x4a, 0x0d,
   0x2d, 0xe5, 0x7a, 0x9f, 0x93, 0xc9, 0x9c, 0xef,
   0xa0, 0xe0, 0x3b, 0x4d, 0xae, 0x2a, 0xf5, 0xb0,
   0xc8, 0xeb, 0xbb, 0x3c, 0x83, 0x53, 0x99, 0x61,
   0x17, 0x2b, 0x04, 0x7e, 0xba, 0x77, 0xd6, 0x26,
   0xe1, 0x69, 0x14, 0x63, 0x55, 0x21, 0x0c, 0x7d]

/-- S-box substitution of one byte. -/
def sb (x : Nat) : Nat := sboxTable.getD x 0

/-- Inverse S-box substitution of one byte. -/
def sbInv (x : Nat) : Nat := sboxInvTable.getD x 0

/-- A 16-byte AES state or round-key block, column-major as in FIPS 197:
byte `i` sits at row `i % 4`, column `i / 4`. -/
structure AESBlock where
  b0 : Nat
  b1 : Nat
  b2 : Nat
  b3 : Nat
  b4 : Nat
  b5 : Nat
  b6 : Nat
  b7 : Nat
  b8 : Nat
  b9 : Nat
  b10 : Nat
  b11 : Nat
  b12 : Nat
  b13 : Nat
  b14 : Nat
  b15 : Nat
deriving Repr, DecidableEq

/-- All sixteen bytes of the block are below 256. -/
def BlockWF (s : AESBlock) : Prop :=
  s.b0 < 256 ∧ s.b1 < 256 ∧ s.b2 < 256 ∧ s.b3 < 256 ∧
  s.b4 < 256 ∧ s.b5 < 256 ∧ s.b6 < 256 ∧ s.b7 < 256 ∧
  s.b8 < 256 ∧ s.b9 < 256 ∧ s.b10 < 256 ∧ s.b11 < 256 ∧
  s.b12 < 256 ∧ s.b13 < 256 ∧ s.b14 < 256 ∧ s.b15 < 256

instance (s : AESBlock) : Decidable (BlockWF s) := by
  unfold BlockWF; infer_instance

/-- Byte-wise exclusive or of two blocks (`AddRoundKey`, and the CBC
chaining xor). -/
def xorBlocks (a b : AESBlock) : AESBlock :=
  ⟨a.b0 ^^^ b.b0, a.b1 ^^^ b.b1, a.b2 ^^^ b.b2, a.b3 ^^^ b.b3,
   a.b4 ^^^ b.b4, a.b5 ^^^ b.b5, a.b6 ^^^ b.b6, a.b7 ^^^ b.b7,
   a.b8 ^^^ b.b8, a.b9 ^^^ b.b9, a.b10 ^^^ b.b10, a.b11 ^^^ b.b11,
   a.b12 ^^^ b.b12, a.b13 ^^^ b.b13, a.b14 ^^^ b.b14, a.b15 ^^^ b.b15⟩

/-- `SubBytes`. -/
def subBytes (s : AESBlock) : AESBlock :=
  ⟨sb s.b0, sb s.b1, sb s.b2, sb s.b3, sb s.b4, sb s.b5, sb s.b6, sb s.b7,
   sb s.b8, sb s.b9, sb s.b10, sb s.b11, sb s.b12, sb s.b13, sb s.b14,
   sb s.b15⟩

/-- `InvSubBytes`. -/
def invSubBytes (s : AESBlock) : AESBlock :=
  ⟨sbInv s.b0, sbInv s.b1, sbInv s.b2, sbInv s.b3, sbInv s.b4, sbInv s.b5,
   sbInv s.b6, sbInv s.b7, sbInv s.b8, sbInv s.b9, sbInv s.b10, sbInv s.b11,
   sbInv s.b12, sbInv s.b13, sbInv s.b14, sbInv s.b15⟩

/-- `ShiftRows`: row `r` rotated left by `r` positions. -/
def shiftRows (s : AESBlock) : AESBlock :=
  ⟨s.b0, s.b5, s.b10, s.b15, s.b4, s.b9, s.b14, s.b3,
   s.b8, s.b13, s.b2, s.b7, s.b12, s.b1, s.b6, s.b11⟩

/-- `InvShiftRows`: row `r` rotated right by `r` positions. -/
def invShiftRows (s : AESBlock) : AESBlock :=
  ⟨s.b0, s.b13, s.b10, s.b7, s.b4, s.b1, s.b14, s.b11,
   s.b8, s.b5, s.b2, s.b15, s.b12, s.b9, s.b6, s.b3⟩

/-- `MixColumns` on one column. -/
def mixCol (c0 c1 c2 c3 : Nat) : Nat × Nat × Nat × Nat :=
  (xtime c0 ^^^ mul3 c1 ^^^ c2 ^^^ c3,
   c0 ^^^ xtime c1 ^^^ mul3 c2 ^^^ c3,
   c0 ^^^ c1 ^^^ xtime c2 ^^^ mul3 c3,
   mul3 c0 ^^^ c1 ^^^ c2 ^^^ xtime c3)

/-- `InvMixColumns` on one column. -/
def invMixCol (c0 c1 c2 c3 : Nat) : Nat × Nat × Nat × Nat :=
  (mul14 c0 ^^^ mul11 c1 ^^^ mul13 c2 ^^^ mul9 c3,
   mul9 c0 ^^^ mul14 c1 ^^^ mul11 c2 ^^^ mul13 c3,
   mul13 c0 ^^^ mul9 c1 ^^^ mul14 c2 ^^^ mul11 c3,
   mul11 c0 ^^^ mul13 c1 ^^^ mul9 c2 ^^^ mul14 c3)

/-- `MixColumns`. -/
def mixColumns (s : AESBlock) : AESBlock :=
  let (a0, a1, a2, a3) := mixCol s.b0 s.b1 s.b2 s.b3
  let (a4, a5, a6, a7) := mixCol s.b4 s.b5 s.b6 s.b7
  let (a8, a9, a10, a11) := mixCol s.b8 s.b9 s.b10 s.b11
  let (a12, a13, a14, a15) := mixCol s.b12 s.b13 s.b14 s.b15
  ⟨a0, a1, a2, a3, a4, a5, a6, a7, a8, a9, a10, a11, a12, a13, a14, a15⟩

/-- `InvMixColumns`. -/
def invMixColumns (s : AESBlock) : AESBlock :=
  let (a0, a1, a2, a3) := invMixCol s.b0 s.b1 s.b2 s.b3
  let (a4, a5, a6, a7) := invMixCol s.b4 s.b5 s.b6 s.b7
  let (a8, a9, a10, a11) := invMixCol s.b8 s.b9 s.b10 s.b11
  let (a12, a13, a14, a15) := invMixCol s.b12 s.b13 s.b14 s.b15
  ⟨a0, a1, a2, a3, a4, a5, a6, a7, a8, a9, a10, a11, a12, a13, a14, a15⟩

/-- The encryption rounds after the initial `AddRoundKey`: every round
key but the last drives a full round, the last drives the final round
without `MixColumns`. -/
def encRounds : List AESBlock → AESBlock → AESBlock
  | [], s => s
  | [k], s => xorBlocks (shiftRows (subBytes s)) k
  | k :: k2 :: rest, s =>
    encRounds (k2 :: rest) (xorBlocks (mixColumns (shiftRows (subBytes s))) k)

/-- AES block encryption under an explicit round-key schedule. -/
def encryptBlock (rks : List AESBlock) (s : AESBlock) : AESBlock :=
  match rks with
  | [] => s
  | k0 :: rest => encRounds rest (xorBlocks s k0)

/-- The inverse of `encRounds`, undoing the rounds in reverse order. -/
def decRounds : List AESBlock → AESBlock → AESBlock
  | [], s => s
  | [k], s => invSubBytes (invShiftRows (xorBlocks s k))
  | k :: k2 :: rest, s =>
    invSubBytes (invShiftRows (invMixColumns
      (xorBlocks (decRounds (k2 :: rest) s) k)))

/-- AES block decryption under an explicit round-key schedule. -/
def decryptBlock (rks : List AESBlock) (s : AESBlock) : AESBlock :=
  match rks with
  | [] => s
  | k0 :: rest => xorBlocks (decRounds rest s) k0

/-! ### Key expansion -/

/-- The AES round-constant bytes, `rcon 1 = 0x01` onward. -/
def rconTable : List Nat :=
  [0x01, 0x02, 0x04, 0x08, 0x10, 0x20, 0x40, 0x80, 0x1b, 0x36]

/-- Round constant for round `j ≥ 1`. -/
def rcon (j : Nat) : Nat := rconTable.getD (j - 1) 0

/-- A four-byte key-schedule word. -/
def KeyWord := Nat × Nat × Nat × Nat

/-- Byte-wise xor of two key words. -/
def xorWord (a b : KeyWord) : KeyWord :=
  (a.1 ^^^ b.1, a.2.1 ^^^ b.2.1, a.2.2.1 ^^^ b.2.2.1, a.2.2.2 ^^^ b.2.2.2)

/-- `RotWord`: one-byte left rotation. -/
def rotWord (w : KeyWord) : KeyWord := (w.2.1, w.2.2.1, w.2.2.2, w.1)

/-- `SubWord`: S-box applied to each byte. -/
def subWord (w : KeyWord) : KeyWord :=
  (sb w.1, sb w.2.1, sb w.2.2.1, sb w.2.2.2)

/-- Packs bytes into four-byte key words. -/
def bytesToKeyWords : List Nat → List KeyWord
  | a :: b :: c :: d :: rest => (a, b, c, d) :: bytesToKeyWords rest
  | _ => []

/-- The FIPS 197 key-expansion loop, generating words until
`4 * (Nk + 7)` of them exist (fuelled; the caller supplies enough fuel). -/
def expandWords (nk : Nat) : Nat → List KeyWord → List KeyWord
  | 0, ws => ws
  | fuel + 1, ws =>
    if ws.length ≥ 4 * (nk + 7) then ws
    else
      let i := ws.length
      let prev := ws.getD (i - 1) (0, 0, 0, 0)
      let base := ws.getD (i - nk) (0, 0, 0, 0)
      let temp :=
        if i % nk = 0 then
          xorWord (subWord (rotWord prev)) (rcon (i / nk), 0, 0, 0)
        else if 6 < nk ∧ i % nk = 4 then subWord prev
        else prev
      expandWords nk fuel (ws ++ [xorWord base temp])

/-- Groups four consecutive key words into one round-key block
(words are the columns of the block). -/
def keyWordsToBlocks : List KeyWord → List AESBlock
  | w0 :: w1 :: w2 :: w3 :: rest =>
    ⟨w0.1, w0.2.1, w0.2.2.1, w0.2.2.2, w1.1, w1.2.1, w1.2.2.1, w1.2.2.2,
     w2.1, w2.2.1, w2.2.2.1, w2.2.2.2, w3.1, w3.2.1, w3.2.2.1, w3.2.2.2⟩ ::
      keyWordsToBlocks rest
  | _ => []

/-- The full AES round-key schedule of a 16-, 24- or 32-byte key
(`Nk + 7` blocks, i.e. `Nr + 1` round keys). -/
def expandKey (key : List Nat) : List AESBlock :=
  let nk := key.length / 4
  keyWordsToBlocks (expandWords nk (4 * (nk + 7)) (bytesToKeyWords key))

/-! ### CBC mode, byte framing and PKCS#7 padding -/

/-- Slices bytes into 16-byte blocks (an incomplete trailing group is
dropped; the inputs used are always multiples of 16 bytes). -/
def bytesToBlocks : List Nat → List AESBlock
  | b0 :: b1 :: b2 :: b3 :: b4 :: b5 :: b6 :: b7 ::
    b8 :: b9 :: b10 :: b11 :: b12 :: b13 :: b14 :: b15 :: rest =>
    ⟨b0, b1, b2, b3, b4, b5, b6, b7, b8, b9, b10, b11, b12, b13, b14, b15⟩ ::
      bytesToBlocks rest
  | _ => []

/-- The sixteen bytes of a block, in order. -/
def blockBytes (s : AESBlock) : List Nat :=
  [s.b0, s.b1, s.b2, s.b3, s.b4, s.b5, s.b6, s.b7,
   s.b8, s.b9, s.b10, s.b11, s.b12, s.b13, s.b14, s.b15]

/-- Flattens blocks back to bytes. -/
def blocksToBytes (bs : List AESBlock) : List Nat := bs.flatMap blockBytes

/-- Reads the first sixteen bytes as a block (used for the IV). -/
def blockOfBytes (l : List Nat) : AESBlock :=
  ⟨l.getD 0 0, l.getD 1 0, l.getD 2 0, l.getD 3 0, l.getD 4 0, l.getD 5 0,
   l.getD 6 0, l.getD 7 0, l.getD 8 0, l.getD 9 0, l.getD 10 0, l.getD 11 0,
   l.getD 12 0, l.getD 13 0, l.getD 14 0, l.getD 15 0⟩

/-- PKCS#7 padding to a multiple of sixteen bytes: `p` copies of the
byte `p`, `1 ≤ p ≤ 16`. -/
def pkcs7Pad (l : List Nat) : List Nat :=
  let p := 16 - l.length % 16
  l ++ List.replicate p p

/-- PKCS#7 unpadding; fails on an ill-formed padding tail. -/
def pkcs7Unpad (l : List Nat) : Option (List Nat) :=
  match l.getLast? with
  | none => none
  | some p =>
    if 1 ≤ p ∧ p ≤ 16 ∧ p ≤ l.length ∧
        (l.drop (l.length - p)).all (fun b => b = p) then
      some (l.take (l.length - p))
    else none

/-- CBC encryption of a block sequence, chaining from `prev`. -/
def cbcEncryptBlocks (rks : List AESBlock) : AESBlock → List AESBlock →
    List AESBlock
  | _, [] => []
  | prev, p :: rest =>
    let c := encryptBlock rks (xorBlocks prev p)
    c :: cbcEncryptBlocks rks c rest

/-- CBC decryption of a block sequence, chaining from `prev`. -/
def cbcDecryptBlocks (rks : List AESBlock) : AESBlock → List AESBlock →
    List AESBlock
  | _, [] => []
  | prev, c :: rest =>
    xorBlocks prev (decryptBlock rks c) :: cbcDecryptBlocks rks c rest

/-- AES-CBC encryption of a byte string with PKCS#7 padding: the
`forge` encryption-cipher pipeline `start(iv); update(pt); finish()`. -/
def aesCbcEncrypt (key iv pt : List Nat) : List Nat :=
  blocksToBytes (cbcEncryptBlocks (expandKey key) (blockOfBytes iv)
    (bytesToBlocks (pkcs7Pad pt)))

/-- AES-CBC decryption of a byte string with PKCS#7 unpadding: the
matching `forge` decryption-cipher pipeline. -/
def aesCbcDecrypt (key iv ct : List Nat) : Option (List Nat) :=
  pkcs7Unpad (blocksToBytes (cbcDecryptBlocks (expandKey key)
    (blockOfBytes iv) (bytesToBlocks ct)))

/-! ## Form encoding (`URLSearchParams.toString`) and base64 -/

/-- Is this byte serialised verbatim by the
`application/x-www-form-urlencoded` serialiser (as
`URLSearchParams.toString` uses): ASCII alphanumerics and `*`, `-`,
`.`, `_`. -/
def formUnreserved (b : Nat) : Bool :=
  (48 ≤ b && b ≤ 57) || (65 ≤ b && b ≤ 90) || (97 ≤ b && b ≤ 122) ||
    b = 42 || b = 45 || b = 46 || b = 95

/-- Serialises one byte: verbatim, `+` for space, else `%XX` with
uppercase hex. -/
def formEncodeByte (b : Nat) : List Char :=
  if formUnreserved b then [Char.ofNat b]
  else if b = 32 then ['+']
  else ['%', hexDigitUpper (b >>> 4), hexDigitUpper (b % 16)]

/-- Form-urlencodes one name or value. -/
def formEncodeComponent (s : String) : String :=
  String.mk ((strBytes s).flatMap formEncodeByte)

/-- `URLSearchParams.toString()`: `name=value` pairs joined with `&`,
both sides encoded. -/
def formEncodeParams (ps : List (String × String)) : String :=
  String.intercalate "&"
    (ps.map (fun p => formEncodeComponent p.1 ++ "=" ++ formEncodeComponent p.2))

/-- The standard base64 alphabet. -/
def base64Chars : List Char :=
  "ABCDEFGHIJKLMNOPQRSTUVWXYZabcdefghijklmnopqrstuvwxyz0123456789+/".data

/-- One base64 alphabet character. -/
def base64Char (n : Nat) : Char := base64Chars.getD n '?'

/-- Base64 encoding with `=` padding (`forge.util.encode64`). -/
def encode64 : List Nat → List Char
  | [] => []
  | [a] => [base64Char (a >>> 2), base64Char ((a &&& 3) <<< 4), '=', '=']
  | [a, b] =>
    [base64Char (a >>> 2), base64Char (((a &&& 3) <<< 4) ||| (b >>> 4)),
     base64Char ((b &&& 15) <<< 2), '=']
  | a :: b :: c :: rest =>
    base64Char (a >>> 2) :: base64Char (((a &&& 3) <<< 4) ||| (b >>> 4)) ::
      base64Char (((b &&& 15) <<< 2) ||| (c >>> 6)) :: base64Char (c &&& 63) ::
      encode64 rest

/-- Base64 encoding as a string. -/
def base64String (bytes : List Nat) : String := String.mk (encode64 bytes)

/-! ## `createCheckout` -/

/-- The product SKUs (`SKU` in `module/src/types`). -/
inductive SKU where
  | proMonthly
  | proAnnual
  | teamAnnual
  | teamMonthly
  | proPerpetual
deriving Repr, DecidableEq

/-- The `SKU_TO_PAYPRO_ID` mapping; `pro-perpetual` carries the sentinel
`-1` ("Not supported via PayPro"). -/
def SKU_TO_PAYPRO_ID : SKU → Int
  | .proMonthly => 79920
  | .proAnnual => 82586
  | .teamAnnual => 82587
  | .teamMonthly => 82588
  | .proPerpetual => -1

/-- The `PAYPRO_CURRENCIES` supported-currency list, verbatim from the
source. -/
def PAYPRO_CURRENCIES : List String :=
  ["AFN", "DZD", "AED", "ARS", "AMD", "AUD", "AZN", "BSD", "BHD", "BDT",
   "BBD", "BYN", "BZD", "BMD", "BOB", "BWP", "BRL", "GBP", "BND", "BGN",
   "CAD", "CVE", "KYD", "XOF", "CLP", "COP", "CRC", "HRK", "CZK", "DKK",
   "DJF", "DOP", "XCD", "EGP", "EUR", "FJD", "GEL", "GTQ", "HNL", "HKD",
   "HUF", "ISK", "INR", "IDR", "ILS", "JOD", "KHR", "KZT", "KES", "BAM",
   "KRW", "KWD", "KGS", "LAK", "LBP", "MOP", "MKD", "MYR", "MVR", "MXN",
   "MDL", "MNT", "MAD", "NAD", "TRY", "NZD", "NGN", "NOK", "OMR", "PKR",
   "PAB", "PGK", "PYG", "PEN", "PHP", "PLN", "QAR", "RON", "RUB", "SAR",
   "RSD", "SGD", "ZAR", "LKR", "SEK", "CHF", "TWD", "TZS", "THB", "TMT",
   "TTD", "TND", "TJS", "UAH", "USD", "UYU", "UZS", "YER", "CNY", "JPY"]

/-- The options object accepted by `createCheckout`.  JavaScript numbers
are modelled as rationals. -/
structure CheckoutOptions where
  sku : SKU
  email : Option String
  quantity : Option Nat
  countryCode : Option String
  currency : String
  price : Rat
  source : String
  returnUrl : Option String
  passthrough : Option String
deriving Repr, DecidableEq

/-- The process environment and collaborator data `createCheckout`
depends on: the base URL, the AES parameter key and IV bytes, and the
mapping `getLatestRates('USD')` would return. -/
structure CheckoutEnv where
  apiBaseUrl : String
  paramKey : List Nat
  paramIv : List Nat
  usdRates : List (String × Rat)
deriving Repr, DecidableEq

/-- The observable side effects of one `createCheckout` call, in order:
`reportError` emissions and rate fetches. -/
inductive CheckoutEffect where
  | reportError (message : String)
  | getLatestRates (base : String)
deriving Repr, DecidableEq

/-- Number-to-string conversion (`number.toString()`).  This stand-in is
exact on integer values, which is all the claims exercise; JavaScript
float formatting is not modelled for non-integers. -/
def jsNumberToString (q : Rat) : String :=
  if q.den = 1 then toString q.num else toString q

/-- A guarded optional string parameter: set only when present and
truthy (the empty string is falsy). -/
def optParam (key : String) (v : Option String) : List (String × String) :=
  match v with
  | some s => if s ≠ "" then [(key, s)] else []
  | none => []

/-- The visible checkout query parameters set before the product block:
currency, then the guarded optional fields in source order. -/
def checkoutQueryBase (options : CheckoutOptions) : List (String × String) :=
  [("currency", options.currency)] ++
    optParam "billing-email" options.email ++
    optParam "billing-country" options.countryCode ++
    (if options.source ≠ "" then [("x-source", options.source)] else []) ++
    optParam "x-passthrough" options.passthrough ++
    optParam "x-return-url" options.returnUrl

/-- The product-parameter plaintext: the form encoding of the single
pair `price[<currency>][Amount] = <amount>`. -/
def productParamsPlaintext (currency amount : String) : String :=
  formEncodeParams [("price[" ++ currency ++ "][Amount]", amount)]

/-- Builds the final checkout URL for a given effective pricing currency
and amount string: encrypts the product parameters, then appends the
`products[1][...]` block to the visible query. -/
def checkoutUrl (env : CheckoutEnv) (options : CheckoutOptions)
    (amountCurrency amount : String) : String :=
  let encryptedParams := aesCbcEncrypt env.paramKey env.paramIv
    (strBytes (productParamsPlaintext amountCurrency amount))
  let ps := checkoutQueryBase options ++
    [("products[1][id]", toString (SKU_TO_PAYPRO_ID options.sku))] ++
    (match options.quantity with
     | some q => if q ≠ 0 then [("products[1][qty]", toString q)] else []
     | none => []) ++
    [("products[1][data]", base64String encryptedParams)]
  env.apiBaseUrl ++ "/checkout?" ++ formEncodeParams ps

/-- Looks a currency up in the fetched rate mapping. -/
def lookupRate (rates : List (String × Rat)) (cur : String) : Option Rat :=
  (rates.find? (fun p => p.1 == cur)).map Prod.snd

/-- The `createCheckout` function.  Returns the outcome (the URL, or the
thrown error message) together with the emitted effects in order.  On the
unsupported-currency path the source sets the *rate itself* as the USD
amount (`usdRate.toString()`). -/
def createCheckout (env : CheckoutEnv) (options : CheckoutOptions) :
    Except String String × List CheckoutEffect :=
  if PAYPRO_CURRENCIES.contains options.currency then
    (.ok (checkoutUrl env options options.currency
      (jsNumberToString options.price)), [])
  else
    let effects := [CheckoutEffect.reportError
      ("Opening unsupported " ++ options.currency ++ " PayPro checkout"),
      CheckoutEffect.getLatestRates "USD"]
    let usdRate := (lookupRate env.usdRates options.currency).getD 0
    if usdRate = 0 then
      (.error ("Can\x27t show PayPro checkout for currency " ++
        options.currency ++ " with no USD rate available"), effects)
    else
      (.ok (checkoutUrl env options "USD" (jsNumberToString usdRate)), effects)

/-! ## `cancelSubscription` -/

/-- The JSON body POSTed to `/api/Subscriptions/Terminate`. -/
structure CancelRequest where
  vendorAccountId : String
  apiSecretKey : String
  reasonText : String
  sendCustomerNotification : Bool
  subscriptionId : String
deriving Repr, DecidableEq

/-- The provider's response envelope, `{isSuccess, errors}`. -/
structure CancelResponseBody where
  isSuccess : Bool
  errors : List String
deriving Repr, DecidableEq

/-- An HTTP response to the cancellation POST: status plus parsed JSON
body. -/
structure HttpResponse where
  status : Nat
  body : CancelResponseBody
deriving Repr, DecidableEq

/-- The `fetch` `Response.ok` flag: status in the 200-299 range. -/
def responseOk (status : Nat) : Bool := 200 ≤ status && status ≤ 299

/-- The errors `cancelSubscription` can raise: the transport error
`Unexpected <status> during PayPro cancellation`, or the provider
rejection `PayPro cancellation request failed`. -/
inductive CancelError where
  | transport (status : Nat)
  | providerRejection
deriving Repr, DecidableEq

/-- The `cancelSubscription` function, over an injected HTTP transport:
POSTs the cancellation request, raises a transport error unless the
response status is a success status, raises the provider-rejection error
when the body's `isSuccess` flag is false, and returns normally
otherwise. -/
def cancelSubscription (transport : CancelRequest → HttpResponse)
    (accountId apiKey subscriptionId : String) : Except CancelError Unit :=
  let response := transport
    ⟨accountId, apiKey, "API cancellation", true, subscriptionId⟩
  if ¬responseOk response.status then
    .error (.transport response.status)
  else if ¬response.body.isSuccess then
    .error .providerRejection
  else
    .ok ()


/-- Decidable equality for `Except` outcomes, used to evaluate the
embedded functions on concrete inputs. -/
instance {e a : Type} [DecidableEq e] [DecidableEq a] :
    DecidableEq (Except e a) := fun x y =>
  match x, y with
  | .ok u, .ok v =>
    if h : u = v then .isTrue (by rw [h]) else .isFalse (by simp [h])
  | .error u, .error v =>
    if h : u = v then .isTrue (by rw [h]) else .isFalse (by simp [h])
  | .ok _, .error _ => .isFalse (by simp)
  | .error _, .ok _ => .isFalse (by simp)

/-! ## Concrete sample data used by the witness theorems -/

/-- A concrete webhook payload with every field empty and a deliberately
wrong signature. -/
def sampleBadWebhook : PayProWebhookData :=
  ⟨"", "", "x", "", "", "", "", "", "", "", "", "", none, "", "", "",
   "", "", "", "", ""⟩

/-- The same payload with every field outside the signed subset changed. -/
def sampleBadWebhookVariant : PayProWebhookData :=
  ⟨"", "OTHER-HASH", "x", "", "", "P2", "team-annual", "9", "9.99", "C2",
   "S2", "01/01/2024 00:00:00", some "https://inv.example", "Active",
   "1/1/2024 1:00 PM", "Auto", "", "", "", "EUR", "x-a=1"⟩

/-- The `StatusError` that rejecting `sampleBadWebhook` under an empty
validation key produces: the expected signature is the SHA-256 of the
empty string. -/
def sampleBadError : StatusError :=
  ⟨403, "PayPro IPN signature did not match - expected " ++
    "e3b0c44298fc1c149afbf4c8996fb92427ae41e4649b934ca495991b7852b855" ++
    " but received x"⟩

/-- A concrete checkout environment: 16-byte AES key and IV, and one
USD conversion rate for the made-up unsupported currency `XTS`. -/
def sampleCheckoutEnv : CheckoutEnv :=
  ⟨"https://store.payproglobal.com",
   [0x00, 0x01, 0x02, 0x03, 0x04, 0x05, 0x06, 0x07,
    0x08, 0x09, 0x0a, 0x0b, 0x0c, 0x0d, 0x0e, 0x0f],
   [0x10, 0x11, 0x12, 0x13, 0x14, 0x15, 0x16, 0x17,
    0x18, 0x19, 0x1a, 0x1b, 0x1c, 0x1d, 0x1e, 0x1f],
   [("XTS", 2)]⟩

/-- Concrete checkout options with a supported currency. -/
def sampleCheckoutOptions : CheckoutOptions :=
  ⟨.proMonthly, some "test@example.com", some 1, none, "USD", 10, "web",
   none, none⟩

/-- The same options with the unsupported currency `XTS`. -/
def sampleCheckoutOptionsXts : CheckoutOptions :=
  ⟨.proMonthly, some "test@example.com", some 1, none, "XTS", 10, "web",
   none, none⟩

/-- The same options with the explicitly unsupported SKU. -/
def sampleCheckoutOptionsPerpetual : CheckoutOptions :=
  ⟨.proPerpetual, some "test@example.com", some 1, none, "USD", 10, "web",
   none, none⟩

/-! # Theorems -/

/-! ## Webhook validation (claims C1, C9, C10) -/

/-- C1: `validatePayProWebhook` returns normally if and only if the
notification's `SIGNATURE` field equals the hex-encoded SHA-256 digest
of the concatenation, in this exact order with no separators, of
`ORDER_ID`, `ORDER_STATUS`, `ORDER_TOTAL_AMOUNT`, `CUSTOMER_EMAIL`, the
shared validation secret, `TEST_MODE` and `IPN_TYPE_NAME`; on any
mismatch it raises an error carrying the fixed status code 403. -/
theorem validatePayProWebhook_accepts_iff_sha256 (validationKey : String)
    (data : PayProWebhookData) :
    (validatePayProWebhook validationKey data = .ok () ↔
      data.SIGNATURE = sha256Hex (data.ORDER_ID ++ data.ORDER_STATUS ++
        data.ORDER_TOTAL_AMOUNT ++ data.CUSTOMER_EMAIL ++ validationKey ++
        data.TEST_MODE ++ data.IPN_TYPE_NAME)) ∧
    (∀ e, validatePayProWebhook validationKey data = .error e →
      e.statusCode = 403) := by
  have hstr : sha256Hex (data.ORDER_ID ++ data.ORDER_STATUS ++
      data.ORDER_TOTAL_AMOUNT ++ data.CUSTOMER_EMAIL ++ validationKey ++
      data.TEST_MODE ++ data.IPN_TYPE_NAME) =
      sha256Hex (webhookSigningString validationKey data) := rfl
  rw [hstr]
  unfold validatePayProWebhook
  by_cases hs : data.SIGNATURE =
      sha256Hex (webhookSigningString validationKey data)
  · simp [hs]
  · refine ⟨by simp [hs], ?_⟩
    intro e he
    simp [hs] at he
    rw [← he]

/-- Witness for C1 at a concrete rejected notification: the gate throws,
and the thrown error's status code is 403. -/
theorem validatePayProWebhook_accepts_iff_sha256_witness :
    validatePayProWebhook "" sampleBadWebhook = .error sampleBadError ∧
    sampleBadError.statusCode = 403 :=
  ⟨by decide,
   (validatePayProWebhook_accepts_iff_sha256 "" sampleBadWebhook).2
     sampleBadError (by decide)⟩

/-- C9: the accept/reject outcome of `validatePayProWebhook` depends only
on the seven signed fields plus the supplied `SIGNATURE`: two
notifications agreeing on those are either both accepted or both
rejected, whatever their other fields. -/
theorem validatePayProWebhook_depends_only_on_signed_fields
    (validationKey : String) (d1 d2 : PayProWebhookData)
    (hOrderId : d1.ORDER_ID = d2.ORDER_ID)
    (hOrderStatus : d1.ORDER_STATUS = d2.ORDER_STATUS)
    (hOrderTotal : d1.ORDER_TOTAL_AMOUNT = d2.ORDER_TOTAL_AMOUNT)
    (hEmail : d1.CUSTOMER_EMAIL = d2.CUSTOMER_EMAIL)
    (hTestMode : d1.TEST_MODE = d2.TEST_MODE)
    (hTypeName : d1.IPN_TYPE_NAME = d2.IPN_TYPE_NAME)
    (hSig : d1.SIGNATURE = d2.SIGNATURE) :
    validatePayProWebhook validationKey d1 = .ok () ↔
      validatePayProWebhook validationKey d2 = .ok () := by
  unfold validatePayProWebhook webhookSigningString
  rw [hOrderId, hOrderStatus, hOrderTotal, hEmail, hTestMode, hTypeName, hSig]

/-- Witness for C9: two concrete notifications agreeing exactly on the
signed fields and the signature, but differing in `HASH`, `PRODUCT_ID`,
`ORDER_ITEM_SKU`, quantities, ids, dates, currency and custom fields,
get the same outcome. -/
theorem validatePayProWebhook_depends_only_on_signed_fields_witness :
    sampleBadWebhook.ORDER_ID = sampleBadWebhookVariant.ORDER_ID ∧
    sampleBadWebhook.ORDER_STATUS = sampleBadWebhookVariant.ORDER_STATUS ∧
    sampleBadWebhook.ORDER_TOTAL_AMOUNT =
      sampleBadWebhookVariant.ORDER_TOTAL_AMOUNT ∧
    sampleBadWebhook.CUSTOMER_EMAIL = sampleBadWebhookVariant.CUSTOMER_EMAIL ∧
    sampleBadWebhook.TEST_MODE = sampleBadWebhookVariant.TEST_MODE ∧
    sampleBadWebhook.IPN_TYPE_NAME = sampleBadWebhookVariant.IPN_TYPE_NAME ∧
    sampleBadWebhook.SIGNATURE = sampleBadWebhookVariant.SIGNATURE ∧
    sampleBadWebhook.HASH ≠ sampleBadWebhookVariant.HASH ∧
    sampleBadWebhook.ORDER_CUSTOM_FIELDS ≠
      sampleBadWebhookVariant.ORDER_CUSTOM_FIELDS ∧
    (validatePayProWebhook "k" sampleBadWebhook = .ok () ↔
      validatePayProWebhook "k" sampleBadWebhookVariant = .ok ()) :=
  ⟨rfl, rfl, rfl, rfl, rfl, rfl, rfl, by decide, by decide,
   validatePayProWebhook_depends_only_on_signed_fields "k"
     sampleBadWebhook sampleBadWebhookVariant rfl rfl rfl rfl rfl rfl rfl⟩

/-- C10: every notification rejected by `validatePayProWebhook` produces
a 403 error whose message contains the correct expected signature
recomputed for that notification, and `catchErrors` turns that
`StatusError` into a response whose body is the message verbatim — so
the valid signature for the submitted fields is disclosed to the
sender. -/
theorem webhook_rejection_discloses_expected_signature
    (validationKey : String) (data : PayProWebhookData) (e : StatusError)
    (h : validatePayProWebhook validationKey data = .error e) :
    e.message = "PayPro IPN signature did not match - expected " ++
      sha256Hex (webhookSigningString validationKey data) ++
      " but received " ++ data.SIGNATURE ∧
    catchErrors (.error (.status e)) =
      .ok ⟨403, [("Cache-Control", "no-store")], e.message⟩ := by
  unfold validatePayProWebhook at h
  by_cases hs : data.SIGNATURE =
      sha256Hex (webhookSigningString validationKey data)
  · simp [hs] at h
  · simp [hs] at h
    rw [← h]
    exact ⟨rfl, rfl⟩

/-- Witness for C10 at a concrete rejected notification: the response
body spells out the expected signature for that payload. -/
theorem webhook_rejection_discloses_expected_signature_witness :
    validatePayProWebhook "" sampleBadWebhook = .error sampleBadError ∧
    (sampleBadError.message =
      "PayPro IPN signature did not match - expected " ++
        sha256Hex (webhookSigningString "" sampleBadWebhook) ++
        " but received " ++ sampleBadWebhook.SIGNATURE ∧
    catchErrors (.error (.status sampleBadError)) =
      .ok ⟨403, [("Cache-Control", "no-store")], sampleBadError.message⟩) :=
  ⟨by decide,
   webhook_rejection_discloses_expected_signature "" sampleBadWebhook
     sampleBadError (by decide)⟩

/-! ## Custom-field decoding (claims C5, C6) -/

/-- The claim's marker without the equals sign coincides with the
regex's lookahead alternative. -/
theorem specMarker_eq_customFieldStop (l : List Char) :
    specMarker l = customFieldStop l := by
  rcases l with _ | ⟨a, _ | ⟨b, _ | ⟨c, _ | ⟨d, t⟩⟩⟩⟩ <;> rfl

/-- Characters of the remainder returned by `scanValue` are characters
of its input. -/
theorem scanValue_sub (l : List Char) (v r : List Char)
    (h : scanValue l = some (v, r)) : ∀ x ∈ r, x ∈ l := by
  induction l generalizing v r with
  | nil =>
    simp [scanValue] at h
    obtain ⟨hv, hr⟩ := h
    subst hr
    intro x hx
    simp at hx
  | cons c rest ih =>
    intro x hx
    unfold scanValue at h
    by_cases hstop : customFieldStop (c :: rest)
    · simp [hstop] at h
      obtain ⟨hv, hr⟩ := h
      subst hr
      exact hx
    · simp [hstop] at h
      by_cases hlt : isLineTerm c
      · simp [hlt] at h
      · simp [hlt] at h
        cases hsv : scanValue rest with
        | none => rw [hsv] at h; simp at h
        | some p =>
          obtain ⟨v2, r2⟩ := p
          rw [hsv] at h
          simp at h
          obtain ⟨hv, hr⟩ := h
          subst hr
          exact List.mem_cons_of_mem _ (ih v2 r2 hsv x hx)

/-- On line-terminator-free input, the lazy scan succeeds and captures
exactly the shortest run of characters up to end-of-string or the next
marker, leaving the rest unconsumed. -/
theorem scanValue_eq_firstStop (l : List Char)
    (h : ∀ c ∈ l, isLineTerm c = false) :
    scanValue l = some (l.take (firstStopIdx specMarker l),
      l.drop (firstStopIdx specMarker l)) := by
  induction l with
  | nil => simp [scanValue, firstStopIdx]
  | cons c rest ih =>
    by_cases hstop : customFieldStop (c :: rest)
    · have hm : specMarker (c :: rest) = true := by
        rw [specMarker_eq_customFieldStop]; exact hstop
      unfold scanValue firstStopIdx
      simp [hstop, hm]
    · have hm : specMarker (c :: rest) = false := by
        rw [specMarker_eq_customFieldStop]; simpa using hstop
      have hlt : isLineTerm c = false := h c (List.mem_cons_self c rest)
      have ih2 := ih (fun d hd => h d (List.mem_cons_of_mem c hd))
      unfold scanValue firstStopIdx
      simp [hstop, hm, hlt, ih2]

/-- Characters of the remainder returned by `tryMatchAt` are characters
of its input. -/
theorem tryMatchAt_sub (l k v r : List Char)
    (h : tryMatchAt l = some (k, v, r)) : ∀ x ∈ r, x ∈ l := by
  rcases l with _ | ⟨a, _ | ⟨b, rest⟩⟩
  · simp [tryMatchAt] at h
  · simp [tryMatchAt] at h
  · simp only [tryMatchAt] at h
    by_cases hab : a = 'x' ∧ b = '-'
    · rw [if_pos hab] at h
      by_cases hkey : (rest.takeWhile isWordChar).isEmpty
      · simp [hkey] at h
      · simp only [hkey, Bool.false_eq_true, if_false] at h
        cases hdw : rest.dropWhile isWordChar with
        | nil => rw [hdw] at h; dsimp only at h; exact absurd h (by simp)
        | cons c afterEq =>
          rw [hdw] at h
          dsimp only at h
          by_cases hc : c = '='
          · rw [if_pos hc] at h
            cases hsv : scanValue afterEq with
            | none => rw [hsv] at h; simp at h
            | some p =>
              obtain ⟨v2, r2⟩ := p
              rw [hsv] at h
              dsimp only at h
              simp at h
              obtain ⟨hk, hv, hr⟩ := h
              subst hr
              intro x hx
              have h1 : x ∈ afterEq := scanValue_sub afterEq v2 r2 hsv x hx
              have h2 : x ∈ rest.dropWhile isWordChar := by
                rw [hdw]; exact List.mem_cons_of_mem _ h1
              have h3 : x ∈ rest := (List.dropWhile_sublist _).subset h2
              exact List.mem_cons_of_mem _ (List.mem_cons_of_mem _ h3)
          · rw [if_neg hc] at h
            simp at h
    · rw [if_neg hab] at h
      simp at h

/-- On line-terminator-free input the source's match attempt computes
exactly the spec-side match attempt with the `,x-<word>` marker. -/
theorem tryMatchAt_eq (l : List Char)
    (h : ∀ c ∈ l, isLineTerm c = false) :
    tryMatchAt l = specTryMatchAt specMarker l := by
  rcases l with _ | ⟨a, _ | ⟨b, rest⟩⟩
  · rfl
  · rfl
  · simp only [tryMatchAt, specTryMatchAt]
    by_cases hab : a = 'x' ∧ b = '-'
    · rw [if_pos hab, if_pos hab]
      by_cases hkey : (rest.takeWhile isWordChar).isEmpty
      · simp [hkey]
      · simp only [hkey, Bool.false_eq_true, if_false]
        cases hdw : rest.dropWhile isWordChar with
        | nil => rfl
        | cons c afterEq =>
          dsimp only
          by_cases hc : c = '='
          · rw [if_pos hc, if_pos hc]
            have hsub : ∀ x ∈ afterEq, isLineTerm x = false := by
              intro x hx
              have h1 : x ∈ rest.dropWhile isWordChar := by
                rw [hdw]; exact List.mem_cons_of_mem _ hx
              have h2 : x ∈ rest := (List.dropWhile_sublist _).subset h1
              exact h x (List.mem_cons_of_mem _ (List.mem_cons_of_mem _ h2))
            rw [scanValue_eq_firstStop afterEq hsub]
          · rw [if_neg hc, if_neg hc]
    · rw [if_neg hab, if_neg hab]

/-- Characters of the remainder returned by `findMatch` are characters
of its input. -/
theorem findMatch_sub (l : List Char) (k v r : List Char)
    (h : findMatch l = some (k, v, r)) : ∀ x ∈ r, x ∈ l := by
  induction l with
  | nil => simp [findMatch] at h
  | cons c rest ih =>
    unfold findMatch at h
    cases htm : tryMatchAt (c :: rest) with
    | none =>
      rw [htm] at h
      exact fun x hx => List.mem_cons_of_mem _ (ih h x hx)
    | some m =>
      rw [htm] at h
      simp at h
      subst h
      exact tryMatchAt_sub (c :: rest) k v r htm

/-- On line-terminator-free input the source's scan-for-next-field
computes exactly the spec-side scan with the `,x-<word>` marker. -/
theorem findMatch_eq (l : List Char)
    (h : ∀ c ∈ l, isLineTerm c = false) :
    findMatch l = specFindMatch specMarker l := by
  induction l with
  | nil => rfl
  | cons c rest ih =>
    unfold findMatch specFindMatch
    rw [tryMatchAt_eq (c :: rest) h]
    cases specTryMatchAt specMarker (c :: rest) with
    | none => exact ih (fun d hd => h d (List.mem_cons_of_mem c hd))
    | some m => rfl

/-- On line-terminator-free input the source's regex loop computes
exactly the spec-side field-collection loop, at every fuel. -/
theorem execLoop_eq (fuel : Nat) (l : List Char)
    (h : ∀ c ∈ l, isLineTerm c = false) :
    execLoop fuel l = specExecLoop specMarker fuel l := by
  induction fuel generalizing l with
  | zero => rfl
  | succ f ih =>
    unfold execLoop specExecLoop
    rw [findMatch_eq l h]
    cases hfm : specFindMatch specMarker l with
    | none => rfl
    | some m =>
      obtain ⟨k, v, r⟩ := m
      have hfm2 : findMatch l = some (k, v, r) := by
        rw [findMatch_eq l h, hfm]
      have hr : ∀ c ∈ r, isLineTerm c = false :=
        fun x hx => h x (findMatch_sub l k v r hfm2 x hx)
      show _ :: execLoop f r = _ :: specExecLoop specMarker f r
      rw [ih r hr]

/-- C5 counterexample: the claim's marker includes an equals sign, but
the source regex's lookahead is `,x-\w+` with no equals sign.  On
`x-a=v,x-b` the source parser stops the value at `,x-b`, while the
claim's `,x-<word>=` marker (which `,x-b` does not satisfy) would let
the value run to end-of-string; the two disagree. -/
theorem parsePayProCustomFields_eq_marker_counterexample :
    parsePayProCustomFields "x-a=v,x-b" = [("a", "v")] ∧
    specParseCustomFieldsEq "x-a=v,x-b" = [("a", "v,x-b")] ∧
    parsePayProCustomFields "x-a=v,x-b" ≠
      specParseCustomFieldsEq "x-a=v,x-b" :=
  ⟨by decide, by decide, by decide⟩

/-- C5 (amended): for every input string free of line terminators (which
the regex's `.` cannot cross), each entry produced by
`parsePayProCustomFields` captures a key immediately following an `x-`
prefix and a value that is the shortest run of characters up to
end-of-string or the next `,x-<word>` marker — a comma, `x-`, and at
least one word character, with no equals sign required; the last field's
value runs to end-of-string, and later duplicate keys overwrite earlier
ones in scan order.  Stated as agreement with the spec-worded decoder. -/
theorem parsePayProCustomFields_matches_shortest_run_spec (s : String)
    (h : ∀ c ∈ s.data, isLineTerm c = false) :
    parsePayProCustomFields s = specParseCustomFields s := by
  unfold parsePayProCustomFields specParseCustomFields
  rw [execLoop_eq (s.data.length + 1) s.data h]

/-- Witness for the amended C5 at a concrete input with a comma-bearing
JSON value. -/
theorem parsePayProCustomFields_matches_shortest_run_spec_witness :
    (∀ c ∈ "x-passthrough=\x7b\"id\":1\x7d,x-source=web".data,
      isLineTerm c = false) ∧
    parsePayProCustomFields "x-passthrough=\x7b\"id\":1\x7d,x-source=web" =
      specParseCustomFields "x-passthrough=\x7b\"id\":1\x7d,x-source=web" :=
  ⟨by decide,
   parsePayProCustomFields_matches_shortest_run_spec
     "x-passthrough=\x7b\"id\":1\x7d,x-source=web" (by decide)⟩

/-- C6: `parsePayProCustomFields` is total — in particular it returns the
empty mapping whenever the regex finds no match — and on the concrete
inputs: `x-a=1,x-b=2` decodes to `a ↦ 1, b ↦ 2`; the comma-free JSON
blob value decodes intact; the empty string decodes to the empty
mapping. -/
theorem parsePayProCustomFields_total_and_examples :
    (∀ s : String, findMatch s.data = none →
      parsePayProCustomFields s = []) ∧
    parsePayProCustomFields "x-a=1,x-b=2" = [("a", "1"), ("b", "2")] ∧
    parsePayProCustomFields "x-passthrough=\x7b\"id\":1\x7d,x-source=web" =
      [("passthrough", "\x7b\"id\":1\x7d"), ("source", "web")] ∧
    parsePayProCustomFields "" = [] := by
  refine ⟨?_, by decide, by decide, by decide⟩
  intro s hnone
  unfold parsePayProCustomFields execLoop
  rw [hnone]
  rfl

/-- Witness for C6 at the empty string, where the regex finds no
match. -/
theorem parsePayProCustomFields_total_and_examples_witness :
    findMatch "".data = none ∧ parsePayProCustomFields "" = [] :=
  ⟨rfl, parsePayProCustomFields_total_and_examples.1 "" rfl⟩

/-! ## AES-CBC round trip (claim C8) -/

/-- Exclusive or reordering helper. -/
theorem xor_left_comm (a b c : Nat) : a ^^^ (b ^^^ c) = b ^^^ (a ^^^ c) := by
  rw [← Nat.xor_assoc, Nat.xor_comm a b, Nat.xor_assoc]

/-- Doubling distributes over exclusive or. -/
theorem mul_two_xor (a b : Nat) : (a ^^^ b) * 2 = a * 2 ^^^ b * 2 := by
  have h : ∀ x : Nat, x * 2 = x <<< 1 := fun x => by
    rw [Nat.shiftLeft_eq, pow_one]
  rw [h, h, h]
  apply Nat.eq_of_testBit_eq
  intro i
  simp only [Nat.testBit_shiftLeft, Nat.testBit_xor]
  cases decide (1 ≤ i) <;> simp

/-- The GF(2^8) doubling map is linear over exclusive or. -/
theorem xtime_xor (a b : Nat) : xtime (a ^^^ b) = xtime a ^^^ xtime b := by
  unfold xtime
  rw [← Nat.and_xor_distrib_right]
  congr 1
  rw [mul_two_xor]
  have hor : (a ^^^ b) &&& 0x80 = (a &&& 0x80) ^^^ (b &&& 0x80) :=
    Nat.and_xor_distrib_right
  have ha := Nat.and_two_pow a 7
  have hb := Nat.and_two_pow b 7
  norm_num at ha hb
  cases hta : a.testBit 7 <;> cases htb : b.testBit 7 <;>
    simp only [hta, htb, Bool.toNat_true, Bool.toNat_false, one_mul,
      zero_mul] at ha hb <;>
    rw [hor, ha, hb] <;>
    norm_num <;>
    simp [Nat.xor_assoc, Nat.xor_comm, xor_left_comm, Nat.xor_self,
      Nat.xor_zero, Nat.zero_xor, Nat.xor_cancel_left]

/-- The doubling map stays below 256. -/
theorem xtime_lt (x : Nat) : xtime x < 256 :=
  Nat.lt_succ_of_le Nat.and_le_right

/-- Exclusive or of two bytes is a byte. -/
theorem xor_lt_256 {x y : Nat} (hx : x < 256) (hy : y < 256) :
    x ^^^ y < 256 := by
  have h2 : (256 : Nat) = 2 ^ 8 := by norm_num
  rw [h2] at hx hy ⊢
  exact Nat.xor_lt_two_pow hx hy

/-- Multiplication by 3 stays below 256 on bytes. -/
theorem mul3_lt {x : Nat} (h : x < 256) : mul3 x < 256 :=
  xor_lt_256 (xtime_lt x) h

/-- A `getD` lookup with default 0 in a list of bytes is a byte. -/
theorem getD_lt_of_all (l : List Nat) (n : Nat) (h : ∀ x ∈ l, x < 256) :
    l.getD n 0 < 256 := by
  induction l generalizing n with
  | nil => simp [List.getD]
  | cons a t ih =>
    cases n with
    | zero => exact h a (List.mem_cons_self a t)
    | succ m =>
      exact ih m (fun x hx => h x (List.mem_cons_of_mem a hx))

set_option maxRecDepth 10000 in
/-- The S-box emits bytes. -/
theorem sb_lt (x : Nat) : sb x < 256 :=
  getD_lt_of_all sboxTable x (by decide)

set_option maxRecDepth 10000 in
/-- The inverse S-box inverts the S-box on bytes. -/
theorem sbInv_sb (x : Nat) (h : x < 256) : sbInv (sb x) = x := by
  have hall : ∀ y < 256, sbInv (sb y) = y := by decide
  exact hall x h

/-- `InvSubBytes` undoes `SubBytes` on well-formed states. -/
theorem invSubBytes_subBytes (s : AESBlock) (h : BlockWF s) :
    invSubBytes (subBytes s) = s := by
  cases s with
  | mk b0 b1 b2 b3 b4 b5 b6 b7 b8 b9 b10 b11 b12 b13 b14 b15 =>
    obtain ⟨h0, h1, h2, h3, h4, h5, h6, h7, h8,
      h9, h10, h11, h12, h13, h14, h15⟩ := h
    simp only [subBytes, invSubBytes]
    rw [sbInv_sb b0 h0, sbInv_sb b1 h1, sbInv_sb b2 h2, sbInv_sb b3 h3,
      sbInv_sb b4 h4, sbInv_sb b5 h5, sbInv_sb b6 h6, sbInv_sb b7 h7,
      sbInv_sb b8 h8, sbInv_sb b9 h9, sbInv_sb b10 h10, sbInv_sb b11 h11,
      sbInv_sb b12 h12, sbInv_sb b13 h13, sbInv_sb b14 h14, sbInv_sb b15 h15]

/-- `InvShiftRows` undoes `ShiftRows`. -/
theorem invShiftRows_shiftRows (s : AESBlock) :
    invShiftRows (shiftRows s) = s := rfl

/-- Adding the same round key twice is the identity. -/
theorem xorBlocks_cancel_right (s k : AESBlock) :
    xorBlocks (xorBlocks s k) k = s := by
  cases s
  cases k
  simp [xorBlocks, Nat.xor_assoc, Nat.xor_self, Nat.xor_zero]

/-- Xoring with the same block on the left twice is the identity. -/
theorem xorBlocks_cancel_left (k s : AESBlock) :
    xorBlocks k (xorBlocks k s) = s := by
  cases s
  cases k
  simp [xorBlocks, Nat.xor_cancel_left]

set_option maxHeartbeats 1000000 in
/-- The inverse mix-column matrix composed with the forward one is the
identity, coordinate-wise in GF(2^8). -/
theorem invMixCol_mixCol (c0 c1 c2 c3 : Nat) :
    invMixCol (xtime c0 ^^^ mul3 c1 ^^^ c2 ^^^ c3)
      (c0 ^^^ xtime c1 ^^^ mul3 c2 ^^^ c3)
      (c0 ^^^ c1 ^^^ xtime c2 ^^^ mul3 c3)
      (mul3 c0 ^^^ c1 ^^^ c2 ^^^ xtime c3) = (c0, c1, c2, c3) := by
  unfold invMixCol
  simp only [mul3, mul9, mul11, mul13, mul14]
  simp only [xtime_xor]
  generalize xtime c0 = a1
  generalize xtime a1 = a2
  generalize xtime a2 = a3
  generalize xtime a3 = a4
  generalize xtime c1 = b1
  generalize xtime b1 = b2
  generalize xtime b2 = b3
  generalize xtime b3 = b4
  generalize xtime c2 = d1
  generalize xtime d1 = d2
  generalize xtime d2 = d3
  generalize xtime d3 = d4
  generalize xtime c3 = e1
  generalize xtime e1 = e2
  generalize xtime e2 = e3
  generalize xtime e3 = e4
  simp only [Prod.mk.injEq]
  refine ⟨?_, ?_, ?_, ?_⟩ <;>
    simp [Nat.xor_assoc, Nat.xor_comm, xor_left_comm, Nat.xor_self,
      Nat.xor_zero, Nat.zero_xor, Nat.xor_cancel_left]

set_option maxHeartbeats 1000000 in
/-- `InvMixColumns` undoes `MixColumns`. -/
theorem invMixColumns_mixColumns (s : AESBlock) :
    invMixColumns (mixColumns s) = s := by
  cases s
  simp only [mixColumns, mixCol]
  simp only [invMixColumns]
  rw [invMixCol_mixCol, invMixCol_mixCol, invMixCol_mixCol, invMixCol_mixCol]

/-- Xoring two well-formed blocks gives a well-formed block. -/
theorem xorBlocks_wf {a b : AESBlock} (ha : BlockWF a) (hb : BlockWF b) :
    BlockWF (xorBlocks a b) := by
  obtain ⟨a0, a1, a2, a3, a4, a5, a6, a7, a8, a9, a10, a11, a12,
    a13, a14, a15⟩ := ha
  obtain ⟨c0, c1, c2, c3, c4, c5, c6, c7, c8, c9, c10, c11, c12,
    c13, c14, c15⟩ := hb
  exact ⟨xor_lt_256 a0 c0, xor_lt_256 a1 c1, xor_lt_256 a2 c2,
    xor_lt_256 a3 c3, xor_lt_256 a4 c4, xor_lt_256 a5 c5,
    xor_lt_256 a6 c6, xor_lt_256 a7 c7, xor_lt_256 a8 c8,
    xor_lt_256 a9 c9, xor_lt_256 a10 c10, xor_lt_256 a11 c11,
    xor_lt_256 a12 c12, xor_lt_256 a13 c13, xor_lt_256 a14 c14,
    xor_lt_256 a15 c15⟩

/-- `SubBytes` always emits a well-formed block. -/
theorem subBytes_wf (s : AESBlock) : BlockWF (subBytes s) :=
  ⟨sb_lt _, sb_lt _, sb_lt _, sb_lt _, sb_lt _, sb_lt _, sb_lt _, sb_lt _,
   sb_lt _, sb_lt _, sb_lt _, sb_lt _, sb_lt _, sb_lt _, sb_lt _, sb_lt _⟩

/-- `ShiftRows` preserves well-formedness. -/
theorem shiftRows_wf {s : AESBlock} (h : BlockWF s) :
    BlockWF (shiftRows s) := by
  obtain ⟨h0, h1, h2, h3, h4, h5, h6, h7, h8,
    h9, h10, h11, h12, h13, h14, h15⟩ := h
  exact ⟨h0, h5, h10, h15, h4, h9, h14, h3, h8, h13, h2, h7, h12, h1,
    h6, h11⟩

/-- `MixColumns` preserves well-formedness. -/
theorem mixColumns_wf {s : AESBlock} (h : BlockWF s) :
    BlockWF (mixColumns s) := by
  obtain ⟨h0, h1, h2, h3, h4, h5, h6, h7, h8,
    h9, h10, h11, h12, h13, h14, h15⟩ := h
  exact ⟨xor_lt_256 (xor_lt_256 (xor_lt_256 (xtime_lt _) (mul3_lt h1)) h2) h3,
    xor_lt_256 (xor_lt_256 (xor_lt_256 h0 (xtime_lt _)) (mul3_lt h2)) h3,
    xor_lt_256 (xor_lt_256 (xor_lt_256 h0 h1) (xtime_lt _)) (mul3_lt h3),
    xor_lt_256 (xor_lt_256 (xor_lt_256 (mul3_lt h0) h1) h2) (xtime_lt _),
    xor_lt_256 (xor_lt_256 (xor_lt_256 (xtime_lt _) (mul3_lt h5)) h6) h7,
    xor_lt_256 (xor_lt_256 (xor_lt_256 h4 (xtime_lt _)) (mul3_lt h6)) h7,
    xor_lt_256 (xor_lt_256 (xor_lt_256 h4 h5) (xtime_lt _)) (mul3_lt h7),
    xor_lt_256 (xor_lt_256 (xor_lt_256 (mul3_lt h4) h5) h6) (xtime_lt _),
    xor_lt_256 (xor_lt_256 (xor_lt_256 (xtime_lt _) (mul3_lt h9)) h10) h11,
    xor_lt_256 (xor_lt_256 (xor_lt_256 h8 (xtime_lt _)) (mul3_lt h10)) h11,
    xor_lt_256 (xor_lt_256 (xor_lt_256 h8 h9) (xtime_lt _)) (mul3_lt h11),
    xor_lt_256 (xor_lt_256 (xor_lt_256 (mul3_lt h8) h9) h10) (xtime_lt _),
    xor_lt_256 (xor_lt_256 (xor_lt_256 (xtime_lt _) (mul3_lt h13)) h14) h15,
    xor_lt_256 (xor_lt_256 (xor_lt_256 h12 (xtime_lt _)) (mul3_lt h14)) h15,
    xor_lt_256 (xor_lt_256 (xor_lt_256 h12 h13) (xtime_lt _)) (mul3_lt h15),
    xor_lt_256 (xor_lt_256 (xor_lt_256 (mul3_lt h12) h13) h14) (xtime_lt _)⟩

/-- The encryption rounds preserve well-formedness. -/
theorem encRounds_wf : ∀ (ks : List AESBlock) (s : AESBlock),
    (∀ k ∈ ks, BlockWF k) → BlockWF s → BlockWF (encRounds ks s) := by
  intro ks
  induction ks with
  | nil => intro s _ hs; exact hs
  | cons k rest ih =>
    intro s hk hs
    cases rest with
    | nil =>
      exact xorBlocks_wf (shiftRows_wf (subBytes_wf s))
        (hk k (List.mem_cons_self k []))
    | cons k2 rest2 =>
      exact ih (xorBlocks (mixColumns (shiftRows (subBytes s))) k)
        (fun x hx => hk x (List.mem_cons_of_mem k hx))
        (xorBlocks_wf (mixColumns_wf (shiftRows_wf (subBytes_wf s)))
          (hk k (List.mem_cons_self k _)))

/-- Block encryption preserves well-formedness. -/
theorem encryptBlock_wf {rks : List AESBlock} {s : AESBlock}
    (hk : ∀ k ∈ rks, BlockWF k) (hs : BlockWF s) :
    BlockWF (encryptBlock rks s) := by
  cases rks with
  | nil => exact hs
  | cons k0 rest =>
    exact encRounds_wf rest (xorBlocks s k0)
      (fun x hx => hk x (List.mem_cons_of_mem k0 hx))
      (xorBlocks_wf hs (hk k0 (List.mem_cons_self k0 rest)))

/-- The decryption rounds undo the encryption rounds on well-formed
states and round keys. -/
theorem decRounds_encRounds : ∀ (ks : List AESBlock) (s : AESBlock),
    (∀ k ∈ ks, BlockWF k) → BlockWF s →
    decRounds ks (encRounds ks s) = s := by
  intro ks
  induction ks with
  | nil => intro s _ _; rfl
  | cons k rest ih =>
    intro s hk hs
    cases rest with
    | nil =>
      simp only [encRounds, decRounds]
      rw [xorBlocks_cancel_right, invShiftRows_shiftRows,
        invSubBytes_subBytes s hs]
    | cons k2 rest2 =>
      simp only [encRounds, decRounds]
      rw [ih (xorBlocks (mixColumns (shiftRows (subBytes s))) k)
        (fun x hx => hk x (List.mem_cons_of_mem k hx))
        (xorBlocks_wf (mixColumns_wf (shiftRows_wf (subBytes_wf s)))
          (hk k (List.mem_cons_self k _)))]
      rw [xorBlocks_cancel_right, invMixColumns_mixColumns,
        invShiftRows_shiftRows, invSubBytes_subBytes s hs]

/-- AES block decryption undoes AES block encryption under any
well-formed round-key schedule. -/
theorem decryptBlock_encryptBlock (rks : List AESBlock) (s : AESBlock)
    (hk : ∀ k ∈ rks, BlockWF k) (hs : BlockWF s) :
    decryptBlock rks (encryptBlock rks s) = s := by
  cases rks with
  | nil => rfl
  | cons k0 rest =>
    simp only [encryptBlock, decryptBlock]
    rw [decRounds_encRounds rest (xorBlocks s k0)
      (fun x hx => hk x (List.mem_cons_of_mem k0 hx))
      (xorBlocks_wf hs (hk k0 (List.mem_cons_self k0 rest)))]
    exact xorBlocks_cancel_right s k0

/-- CBC decryption undoes CBC encryption block-wise. -/
theorem cbcDecryptBlocks_cbcEncryptBlocks (rks : List AESBlock)
    (hrk : ∀ k ∈ rks, BlockWF k) :
    ∀ (ps : List AESBlock) (prev : AESBlock), BlockWF prev →
    (∀ p ∈ ps, BlockWF p) →
    cbcDecryptBlocks rks prev (cbcEncryptBlocks rks prev ps) = ps := by
  intro ps
  induction ps with
  | nil => intro prev _ _; rfl
  | cons p rest ih =>
    intro prev hprev hps
    have hp : BlockWF p := hps p (List.mem_cons_self p rest)
    simp only [cbcEncryptBlocks, cbcDecryptBlocks]
    rw [decryptBlock_encryptBlock rks (xorBlocks prev p) hrk
      (xorBlocks_wf hprev hp)]
    rw [xorBlocks_cancel_left]
    rw [ih (encryptBlock rks (xorBlocks prev p))
      (encryptBlock_wf hrk (xorBlocks_wf hprev hp))
      (fun x hx => hps x (List.mem_cons_of_mem p hx))]

/-- Re-slicing the bytes of a block sequence recovers the blocks. -/
theorem bytesToBlocks_blocksToBytes (bs : List AESBlock) :
    bytesToBlocks (blocksToBytes bs) = bs := by
  induction bs with
  | nil => rfl
  | cons b rest ih =>
    cases b
    simp only [blocksToBytes, blockBytes, List.flatMap_cons,
      List.cons_append, List.nil_append]
    rw [show ∀ t, bytesToBlocks
      (_ :: _ :: _ :: _ :: _ :: _ :: _ :: _ ::
       _ :: _ :: _ :: _ :: _ :: _ :: _ :: _ :: t) =
      AESBlock.mk _ _ _ _ _ _ _ _ _ _ _ _ _ _ _ _ :: bytesToBlocks t
      from fun t => rfl]
    rw [← blocksToBytes]
    rw [ih]

/-- Flattening the block slicing of a byte list whose length is a
multiple of sixteen recovers the bytes (fuelled strong induction). -/
theorem blocksToBytes_bytesToBlocks_aux : ∀ (fuel : Nat) (l : List Nat),
    l.length ≤ fuel → 16 ∣ l.length →
    blocksToBytes (bytesToBlocks l) = l := by
  intro fuel
  induction fuel with
  | zero =>
    intro l hl _
    have h0 : l.length = 0 := Nat.le_zero.mp hl
    cases l with
    | nil => rfl
    | cons a t => simp at h0
  | succ n ih =>
    intro l hl hd
    rcases l with _ | ⟨b0, l⟩
    · rfl
    rcases l with _ | ⟨b1, l⟩
    · simp only [List.length_cons, List.length_nil] at hd
      omega
    rcases l with _ | ⟨b2, l⟩
    · simp only [List.length_cons, List.length_nil] at hd
      omega
    rcases l with _ | ⟨b3, l⟩
    · simp only [List.length_cons, List.length_nil] at hd
      omega
    rcases l with _ | ⟨b4, l⟩
    · simp only [List.length_cons, List.length_nil] at hd
      omega
    rcases l with _ | ⟨b5, l⟩
    · simp only [List.length_cons, List.length_nil] at hd
      omega
    rcases l with _ | ⟨b6, l⟩
    · simp only [List.length_cons, List.length_nil] at hd
      omega
    rcases l with _ | ⟨b7, l⟩
    · simp only [List.length_cons, List.length_nil] at hd
      omega
    rcases l with _ | ⟨b8, l⟩
    · simp only [List.length_cons, List.length_nil] at hd
      omega
    rcases l with _ | ⟨b9, l⟩
    · simp only [List.length_cons, List.length_nil] at hd
      omega
    rcases l with _ | ⟨b10, l⟩
    · simp only [List.length_cons, List.length_nil] at hd
      omega
    rcases l with _ | ⟨b11, l⟩
    · simp only [List.length_cons, List.length_nil] at hd
      omega
    rcases l with _ | ⟨b12, l⟩
    · simp only [List.length_cons, List.length_nil] at hd
      omega
    rcases l with _ | ⟨b13, l⟩
    · simp only [List.length_cons, List.length_nil] at hd
      omega
    rcases l with _ | ⟨b14, l⟩
    · simp only [List.length_cons, List.length_nil] at hd
      omega
    rcases l with _ | ⟨b15, l⟩
    · simp only [List.length_cons, List.length_nil] at hd
      omega
    have hd2 : 16 ∣ l.length := by
      simp only [List.length_cons] at hd
      omega
    have hl2 : l.length ≤ n := by
      simp only [List.length_cons] at hl
      omega
    simp only [bytesToBlocks, blocksToBytes, blockBytes, List.flatMap_cons,
      List.cons_append, List.nil_append]
    rw [← blocksToBytes, ih l hl2 hd2]

/-- Flattening the block slicing of a byte list whose length is a
multiple of sixteen recovers the bytes. -/
theorem blocksToBytes_bytesToBlocks (l : List Nat) (h : 16 ∣ l.length) :
    blocksToBytes (bytesToBlocks l) = l :=
  blocksToBytes_bytesToBlocks_aux l.length l Nat.le.refl h

/-- PKCS#7 padding always produces a multiple of sixteen bytes. -/
theorem pkcs7Pad_length (l : List Nat) : 16 ∣ (pkcs7Pad l).length := by
  unfold pkcs7Pad
  simp only [List.length_append, List.length_replicate]
  have h : l.length % 16 < 16 := Nat.mod_lt _ (by omega)
  omega

/-- PKCS#7 unpadding undoes PKCS#7 padding. -/
theorem pkcs7Unpad_pkcs7Pad (l : List Nat) :
    pkcs7Unpad (pkcs7Pad l) = some l := by
  unfold pkcs7Pad pkcs7Unpad
  dsimp only
  have hmod : l.length % 16 < 16 := Nat.mod_lt _ (by omega)
  have hp1 : 1 ≤ 16 - l.length % 16 := by omega
  have hp16 : 16 - l.length % 16 ≤ 16 := by omega
  have hrep : List.replicate (16 - l.length % 16) (16 - l.length % 16) =
      List.replicate (16 - l.length % 16 - 1) (16 - l.length % 16) ++
        [16 - l.length % 16] := by
    have := List.replicate_succ' (16 - l.length % 16 - 1)
      (16 - l.length % 16)
    rw [← this]
    congr 1
    omega
  rw [hrep, ← List.append_assoc, List.getLast?_concat]
  dsimp only
  have hlen : (l ++ List.replicate (16 - l.length % 16 - 1)
      (16 - l.length % 16) ++ [16 - l.length % 16]).length =
      l.length + (16 - l.length % 16) := by
    simp [List.length_append, List.length_replicate]
    omega
  rw [hlen]
  have hcond : 1 ≤ 16 - l.length % 16 ∧ 16 - l.length % 16 ≤ 16 ∧
      16 - l.length % 16 ≤ l.length + (16 - l.length % 16) ∧
      (((l ++ List.replicate (16 - l.length % 16 - 1)
        (16 - l.length % 16) ++ [16 - l.length % 16]).drop
        (l.length + (16 - l.length % 16) - (16 - l.length % 16))).all
        (fun b => b = 16 - l.length % 16)) = true := by
    refine ⟨hp1, hp16, by omega, ?_⟩
    have hdropIdx : l.length + (16 - l.length % 16) - (16 - l.length % 16) =
        l.length := by omega
    rw [hdropIdx, List.append_assoc, List.drop_left]
    rw [← List.replicate_succ']
    simp [List.all_eq_true, List.mem_replicate]
  split
  · congr 1
    have htakeIdx : l.length + (16 - l.length % 16) - (16 - l.length % 16) =
        l.length := by omega
    rw [htakeIdx, List.append_assoc, List.take_left]
  · rename_i hFalse
    exact absurd hcond hFalse

/-- The first-sixteen-bytes block of a byte list is well formed. -/
theorem blockOfBytes_wf {l : List Nat} (h : ∀ x ∈ l, x < 256) :
    BlockWF (blockOfBytes l) :=
  ⟨getD_lt_of_all l 0 h, getD_lt_of_all l 1 h, getD_lt_of_all l 2 h,
   getD_lt_of_all l 3 h, getD_lt_of_all l 4 h, getD_lt_of_all l 5 h,
   getD_lt_of_all l 6 h, getD_lt_of_all l 7 h, getD_lt_of_all l 8 h,
   getD_lt_of_all l 9 h, getD_lt_of_all l 10 h, getD_lt_of_all l 11 h,
   getD_lt_of_all l 12 h, getD_lt_of_all l 13 h, getD_lt_of_all l 14 h,
   getD_lt_of_all l 15 h⟩

/-- Slicing a byte list into blocks yields well-formed blocks. -/
theorem bytesToBlocks_wf : ∀ (l : List Nat), (∀ x ∈ l, x < 256) →
    ∀ blk ∈ bytesToBlocks l, BlockWF blk := by
  intro l
  induction l using bytesToBlocks.induct with
  | case1 b0 b1 b2 b3 b4 b5 b6 b7 b8 b9 b10 b11 b12 b13 b14 b15 rest ih =>
    intro h blk hblk
    simp only [bytesToBlocks, List.mem_cons] at hblk
    rcases hblk with h1 | h2
    · subst h1
      refine ⟨?_, ?_, ?_, ?_, ?_, ?_, ?_, ?_, ?_, ?_, ?_, ?_, ?_, ?_,
        ?_, ?_⟩ <;> exact h _ (by simp)
    · exact ih (fun x hx => h x (by simp [hx])) blk h2
  | case2 l hshape =>
    intro h blk hblk
    rw [show bytesToBlocks l = [] from by
      unfold bytesToBlocks
      split
      · exact ((hshape _ _ _ _ _ _ _ _ _ _ _ _ _ _ _ _ _ rfl).elim)
      · rfl] at hblk
    exact absurd hblk (List.not_mem_nil blk)

/-- PKCS#7 padding of a byte string is a byte string. -/
theorem pkcs7Pad_lt {l : List Nat} (h : ∀ x ∈ l, x < 256) :
    ∀ x ∈ pkcs7Pad l, x < 256 := by
  intro x hx
  unfold pkcs7Pad at hx
  rcases List.mem_append.mp hx with h1 | h2
  · exact h x h1
  · have := (List.mem_replicate.mp h2).2
    omega

/-- The AES-CBC pipeline decrypts what it encrypts: for any key and IV
bytes and any plaintext bytes, decryption with the same key and IV
recovers the exact plaintext. -/
theorem aesCbcDecrypt_aesCbcEncrypt (key iv pt : List Nat)
    (hkey : ∀ k ∈ expandKey key, BlockWF k)
    (hiv : ∀ x ∈ iv, x < 256) (hpt : ∀ x ∈ pt, x < 256) :
    aesCbcDecrypt key iv (aesCbcEncrypt key iv pt) = some pt := by
  unfold aesCbcEncrypt aesCbcDecrypt
  rw [bytesToBlocks_blocksToBytes]
  rw [cbcDecryptBlocks_cbcEncryptBlocks (expandKey key) hkey
    (bytesToBlocks (pkcs7Pad pt)) (blockOfBytes iv)
    (blockOfBytes_wf hiv)
    (bytesToBlocks_wf (pkcs7Pad pt) (pkcs7Pad_lt hpt))]
  rw [blocksToBytes_bytesToBlocks (pkcs7Pad pt) (pkcs7Pad_length pt)]
  exact pkcs7Unpad_pkcs7Pad pt

/-- Bitwise or of two bytes is a byte. -/
theorem or_lt_256 {x y : Nat} (hx : x < 256) (hy : y < 256) :
    x ||| y < 256 := by
  have h2 : (256 : Nat) = 2 ^ 8 := by norm_num
  rw [h2] at hx hy ⊢
  exact Nat.or_lt_two_pow hx hy

/-- A character's code point is below `0x110000`. -/
theorem char_toNat_lt (c : Char) : c.toNat < 0x110000 := by
  have h := c.valid
  unfold UInt32.isValidChar Nat.isValidChar at h
  simp [Char.toNat] at *
  rcases h with h1 | ⟨h2, h3⟩ <;> omega

/-- The UTF-8 encoding of a character consists of bytes. -/
theorem utf8Bytes_lt (c : Char) : ∀ b ∈ utf8Bytes c, b < 256 := by
  have hc := char_toNat_lt c
  have hshr : ∀ k : Nat, c.toNat >>> k = c.toNat / 2 ^ k :=
    fun k => Nat.shiftRight_eq_div_pow c.toNat k
  have hand : ∀ m : Nat, c.toNat >>> m &&& 0x3F < 256 := fun m =>
    Nat.lt_succ_of_le (le_trans Nat.and_le_right (by omega))
  have hand0 : c.toNat &&& 0x3F < 256 :=
    Nat.lt_succ_of_le (le_trans Nat.and_le_right (by omega))
  intro b hb
  unfold utf8Bytes at hb
  dsimp only at hb
  by_cases h1 : c.toNat < 0x80
  · rw [if_pos h1] at hb
    simp at hb
    omega
  · rw [if_neg h1] at hb
    by_cases h2 : c.toNat < 0x800
    · rw [if_pos h2] at hb
      simp at hb
      rcases hb with hb | hb <;> subst hb
      · refine or_lt_256 (by omega) ?_
        rw [hshr 6]
        omega
      · exact or_lt_256 (by omega) hand0
    · rw [if_neg h2] at hb
      by_cases h3 : c.toNat < 0x10000
      · rw [if_pos h3] at hb
        simp at hb
        rcases hb with hb | hb | hb <;> subst hb
        · refine or_lt_256 (by omega) ?_
          rw [hshr 12]
          omega
        · exact or_lt_256 (by omega) (hand 6)
        · exact or_lt_256 (by omega) hand0
      · rw [if_neg h3] at hb
        simp at hb
        rcases hb with hb | hb | hb | hb <;> subst hb
        · refine or_lt_256 (by omega) ?_
          rw [hshr 18]
          omega
        · exact or_lt_256 (by omega) (hand 12)
        · exact or_lt_256 (by omega) (hand 6)
        · exact or_lt_256 (by omega) hand0

/-- The UTF-8 bytes of a string are bytes. -/
theorem strBytes_lt (s : String) : ∀ b ∈ strBytes s, b < 256 := by
  intro b hb
  unfold strBytes at hb
  rcases List.mem_flatMap.mp hb with ⟨c, _, hbc⟩
  exact utf8Bytes_lt c b hbc

/-- A `getD` lookup in a list of well-formed key words is well formed. -/
theorem getD_word_wf (ws : List KeyWord) (n : Nat)
    (h : ∀ w ∈ ws, w.1 < 256 ∧ w.2.1 < 256 ∧ w.2.2.1 < 256 ∧ w.2.2.2 < 256) :
    (ws.getD n (0, 0, 0, 0)).1 < 256 ∧ (ws.getD n (0, 0, 0, 0)).2.1 < 256 ∧
    (ws.getD n (0, 0, 0, 0)).2.2.1 < 256 ∧
    (ws.getD n (0, 0, 0, 0)).2.2.2 < 256 := by
  induction ws generalizing n with
  | nil => exact ⟨by norm_num, by norm_num, by norm_num, by norm_num⟩
  | cons a t ih =>
    cases n with
    | zero => exact h a (List.mem_cons_self a t)
    | succ m => exact ih m (fun w hw => h w (List.mem_cons_of_mem a hw))

/-- Round constants are bytes. -/
theorem rcon_lt (j : Nat) : rcon j < 256 :=
  getD_lt_of_all rconTable (j - 1) (by decide)

/-- `SubWord` always emits a well-formed word. -/
theorem subWord_wf (w : KeyWord) : (subWord w).1 < 256 ∧
    (subWord w).2.1 < 256 ∧ (subWord w).2.2.1 < 256 ∧
    (subWord w).2.2.2 < 256 :=
  ⟨sb_lt _, sb_lt _, sb_lt _, sb_lt _⟩

/-- Xoring two well-formed words gives a well-formed word. -/
theorem xorWord_wf {a b : KeyWord}
    (ha : a.1 < 256 ∧ a.2.1 < 256 ∧ a.2.2.1 < 256 ∧ a.2.2.2 < 256)
    (hb : b.1 < 256 ∧ b.2.1 < 256 ∧ b.2.2.1 < 256 ∧ b.2.2.2 < 256) :
    (xorWord a b).1 < 256 ∧ (xorWord a b).2.1 < 256 ∧
    (xorWord a b).2.2.1 < 256 ∧ (xorWord a b).2.2.2 < 256 :=
  ⟨xor_lt_256 ha.1 hb.1, xor_lt_256 ha.2.1 hb.2.1,
   xor_lt_256 ha.2.2.1 hb.2.2.1, xor_lt_256 ha.2.2.2 hb.2.2.2⟩

/-- Packing bytes into key words preserves well-formedness. -/
theorem bytesToKeyWords_wf : ∀ (l : List Nat), (∀ x ∈ l, x < 256) →
    ∀ w ∈ bytesToKeyWords l,
    w.1 < 256 ∧ w.2.1 < 256 ∧ w.2.2.1 < 256 ∧ w.2.2.2 < 256 := by
  intro l
  induction l using bytesToKeyWords.induct with
  | case1 a b c d rest ih =>
    intro h w hw
    simp only [bytesToKeyWords, List.mem_cons] at hw
    rcases hw with h1 | h2
    · subst h1
      exact ⟨h a (by simp), h b (by simp), h c (by simp), h d (by simp)⟩
    · exact ih (fun x hx => h x (by simp [hx])) w h2
  | case2 l hshape =>
    intro h w hw
    rw [show bytesToKeyWords l = [] from by
      unfold bytesToKeyWords
      split
      · exact ((hshape _ _ _ _ _ rfl).elim)
      · rfl] at hw
    exact absurd hw (List.not_mem_nil w)

/-- The key-expansion loop preserves word well-formedness. -/
theorem expandWords_wf (nk : Nat) : ∀ (fuel : Nat) (ws : List KeyWord),
    (∀ w ∈ ws, w.1 < 256 ∧ w.2.1 < 256 ∧ w.2.2.1 < 256 ∧ w.2.2.2 < 256) →
    ∀ w ∈ expandWords nk fuel ws,
    w.1 < 256 ∧ w.2.1 < 256 ∧ w.2.2.1 < 256 ∧ w.2.2.2 < 256 := by
  intro fuel
  induction fuel with
  | zero => intro ws hws; exact hws
  | succ n ih =>
    intro ws hws w hw
    unfold expandWords at hw
    split at hw
    · exact hws w hw
    · refine ih _ ?_ w hw
      intro u hu
      rcases List.mem_append.mp hu with h1 | h2
      · exact hws u h1
      · simp only [List.mem_singleton] at h2
        subst h2
        refine xorWord_wf (getD_word_wf _ _ hws) ?_
        split
        · exact xorWord_wf (subWord_wf _)
            ⟨rcon_lt _, by norm_num, by norm_num, by norm_num⟩
        · split
          · exact subWord_wf _
          · exact getD_word_wf _ _ hws

/-- Grouping well-formed key words into blocks gives well-formed
blocks. -/
theorem keyWordsToBlocks_wf : ∀ (ws : List KeyWord),
    (∀ w ∈ ws, w.1 < 256 ∧ w.2.1 < 256 ∧ w.2.2.1 < 256 ∧ w.2.2.2 < 256) →
    ∀ blk ∈ keyWordsToBlocks ws, BlockWF blk := by
  intro ws
  induction ws using keyWordsToBlocks.induct with
  | case1 w0 w1 w2 w3 rest ih =>
    intro h blk hblk
    simp only [keyWordsToBlocks, List.mem_cons] at hblk
    rcases hblk with h1 | h2
    · subst h1
      have hw0 := h w0 (by simp)
      have hw1 := h w1 (by simp)
      have hw2 := h w2 (by simp)
      have hw3 := h w3 (by simp)
      exact ⟨hw0.1, hw0.2.1, hw0.2.2.1, hw0.2.2.2,
        hw1.1, hw1.2.1, hw1.2.2.1, hw1.2.2.2,
        hw2.1, hw2.2.1, hw2.2.2.1, hw2.2.2.2,
        hw3.1, hw3.2.1, hw3.2.2.1, hw3.2.2.2⟩
    · exact ih (fun x hx => h x (by simp [hx])) blk h2
  | case2 ws hshape =>
    intro h blk hblk
    rw [show keyWordsToBlocks ws = [] from by
      unfold keyWordsToBlocks
      split
      · exact ((hshape _ _ _ _ _ rfl).elim)
      · rfl] at hblk
    exact absurd hblk (List.not_mem_nil blk)

/-- Every round key produced by the key expansion of a byte key is a
well-formed block. -/
theorem expandKey_wf (key : List Nat) (h : ∀ x ∈ key, x < 256) :
    ∀ k ∈ expandKey key, BlockWF k := by
  unfold expandKey
  exact keyWordsToBlocks_wf _ (expandWords_wf _ _ _ (bytesToKeyWords_wf key h))

/-- C8: for every product-parameter plaintext over printable-ASCII
currency and amount strings, AES-CBC encryption under the fixed key and
IV followed by AES-CBC decryption with the same key and IV reproduces
the exact original plaintext. -/
theorem aesCbc_roundtrip_product_params (key iv : List Nat)
    (cur amt : String)
    (hkeyLen : key.length = 16 ∨ key.length = 24 ∨ key.length = 32)
    (hkey : ∀ x ∈ key, x < 256)
    (hivLen : iv.length = 16) (hiv : ∀ x ∈ iv, x < 256)
    (hcur : ∀ c ∈ cur.data, 0x20 ≤ c.toNat ∧ c.toNat < 0x7F)
    (hamt : ∀ c ∈ amt.data, 0x20 ≤ c.toNat ∧ c.toNat < 0x7F) :
    aesCbcDecrypt key iv (aesCbcEncrypt key iv
      (strBytes (productParamsPlaintext cur amt))) =
      some (strBytes (productParamsPlaintext cur amt)) :=
  aesCbcDecrypt_aesCbcEncrypt key iv _ (expandKey_wf key hkey) hiv
    (strBytes_lt _)

/-- Witness for C8 at a concrete 16-byte key and IV with currency `USD`
and amount `10`. -/
theorem aesCbc_roundtrip_product_params_witness :
    (sampleCheckoutEnv.paramKey.length = 16 ∨
      sampleCheckoutEnv.paramKey.length = 24 ∨
      sampleCheckoutEnv.paramKey.length = 32) ∧
    (∀ x ∈ sampleCheckoutEnv.paramKey, x < 256) ∧
    sampleCheckoutEnv.paramIv.length = 16 ∧
    (∀ x ∈ sampleCheckoutEnv.paramIv, x < 256) ∧
    (∀ c ∈ "USD".data, 0x20 ≤ c.toNat ∧ c.toNat < 0x7F) ∧
    (∀ c ∈ "10".data, 0x20 ≤ c.toNat ∧ c.toNat < 0x7F) ∧
    aesCbcDecrypt sampleCheckoutEnv.paramKey sampleCheckoutEnv.paramIv
      (aesCbcEncrypt sampleCheckoutEnv.paramKey sampleCheckoutEnv.paramIv
        (strBytes (productParamsPlaintext "USD" "10"))) =
      some (strBytes (productParamsPlaintext "USD" "10")) :=
  ⟨by decide, by decide, by decide, by decide, by decide, by decide,
   aesCbc_roundtrip_product_params sampleCheckoutEnv.paramKey
     sampleCheckoutEnv.paramIv "USD" "10" (by decide) (by decide)
     (by decide) (by decide) (by decide) (by decide)⟩

/-! ## Checkout building (claims C2, C3, C4) -/

/-- Membership in the supported-currency list as the Bool `contains`. -/
theorem contains_currency_true {c : String}
    (h : c ∈ PAYPRO_CURRENCIES) : PAYPRO_CURRENCIES.contains c = true :=
  List.elem_iff.mpr h

/-- Non-membership in the supported-currency list as the Bool
`contains`. -/
theorem contains_currency_false {c : String}
    (h : c ∉ PAYPRO_CURRENCIES) : PAYPRO_CURRENCIES.contains c = false := by
  rw [Bool.eq_false_iff]
  intro hc
  exact h (List.elem_iff.mp hc)

/-- C4: for a supported SKU and a currency in the provider's list,
`createCheckout` returns a URL whose `products[1][data]` parameter is
the base64 encoding of the AES-CBC ciphertext (under the configured key
and IV) of the form-encoded plaintext `price[<request.currency>][Amount]
= <request.price>` — the effective currency is the request currency and
the effective price the request price — and performs no error report or
rate fetch. -/
theorem createCheckout_supported_currency_encrypts_request_price
    (env : CheckoutEnv) (opts : CheckoutOptions)
    (hsku : opts.sku ≠ SKU.proPerpetual)
    (hcur : opts.currency ∈ PAYPRO_CURRENCIES) :
    (∃ ps, (createCheckout env opts).1 =
      .ok (env.apiBaseUrl ++ "/checkout?" ++ formEncodeParams (ps ++
        [("products[1][data]", base64String (aesCbcEncrypt env.paramKey
          env.paramIv (strBytes (productParamsPlaintext opts.currency
            (jsNumberToString opts.price)))))]))) ∧
    (createCheckout env opts).2 = [] := by
  constructor
  · refine ⟨checkoutQueryBase opts ++
      [("products[1][id]", toString (SKU_TO_PAYPRO_ID opts.sku))] ++
      (match opts.quantity with
       | some q => if q ≠ 0 then [("products[1][qty]", toString q)] else []
       | none => []), ?_⟩
    unfold createCheckout
    rw [if_pos (contains_currency_true hcur)]
    rfl
  · unfold createCheckout
    rw [if_pos (contains_currency_true hcur)]

/-- Witness for C4 at a concrete environment and options. -/
theorem createCheckout_supported_currency_encrypts_request_price_witness :
    sampleCheckoutOptions.sku ≠ SKU.proPerpetual ∧
    sampleCheckoutOptions.currency ∈ PAYPRO_CURRENCIES ∧
    ((∃ ps, (createCheckout sampleCheckoutEnv sampleCheckoutOptions).1 =
      .ok (sampleCheckoutEnv.apiBaseUrl ++ "/checkout?" ++
        formEncodeParams (ps ++ [("products[1][data]",
          base64String (aesCbcEncrypt sampleCheckoutEnv.paramKey
            sampleCheckoutEnv.paramIv (strBytes (productParamsPlaintext
              sampleCheckoutOptions.currency
              (jsNumberToString sampleCheckoutOptions.price)))))]))) ∧
    (createCheckout sampleCheckoutEnv sampleCheckoutOptions).2 = []) :=
  ⟨by decide, by decide,
   createCheckout_supported_currency_encrypts_request_price
     sampleCheckoutEnv sampleCheckoutOptions (by decide) (by decide)⟩

/-- C2 (code behaviour): for an unsupported currency `createCheckout`
emits exactly one error report followed by one USD rate fetch, fails
when no rate is available — but the encoded USD amount is the raw
exchange rate itself: the outcome is entirely independent of the request
price, contradicting the claim that the converted request price is
encoded. -/
theorem createCheckout_unsupported_currency_ignores_price
    (env : CheckoutEnv) (sku : SKU) (email : Option String)
    (quantity : Option Nat) (countryCode : Option String)
    (currency : String) (p1 p2 : Rat) (source : String)
    (returnUrl passthrough : Option String)
    (hcur : currency ∉ PAYPRO_CURRENCIES) :
    createCheckout env ⟨sku, email, quantity, countryCode, currency, p1,
      source, returnUrl, passthrough⟩ =
    createCheckout env ⟨sku, email, quantity, countryCode, currency, p2,
      source, returnUrl, passthrough⟩ ∧
    (createCheckout env ⟨sku, email, quantity, countryCode, currency, p1,
      source, returnUrl, passthrough⟩).2 =
      [CheckoutEffect.reportError ("Opening unsupported " ++ currency ++
        " PayPro checkout"), CheckoutEffect.getLatestRates "USD"] ∧
    (lookupRate env.usdRates currency = none →
      (createCheckout env ⟨sku, email, quantity, countryCode, currency,
        p1, source, returnUrl, passthrough⟩).1 =
      .error ("Can\x27t show PayPro checkout for currency " ++ currency ++
        " with no USD rate available")) := by
  have hc := contains_currency_false hcur
  have hurl : ∀ aCur amt, checkoutUrl env ⟨sku, email, quantity, countryCode,
      currency, p1, source, returnUrl, passthrough⟩ aCur amt =
      checkoutUrl env ⟨sku, email, quantity, countryCode, currency, p2,
      source, returnUrl, passthrough⟩ aCur amt := fun _ _ => rfl
  refine ⟨?_, ?_, ?_⟩
  · unfold createCheckout
    simp only [hc, Bool.false_eq_true, if_false]
    rw [hurl]
  · unfold createCheckout
    simp only [hc, Bool.false_eq_true, if_false]
    split <;> rfl
  · intro hnone
    unfold createCheckout
    simp only [hc, Bool.false_eq_true, if_false]
    rw [hnone]
    rfl

/-- Witness for C2 at a concrete environment: with an `XTS` rate of 2,
the checkout built for price 10 equals the one built for price 999. -/
theorem createCheckout_unsupported_currency_ignores_price_witness :
    "XTS" ∉ PAYPRO_CURRENCIES ∧
    (createCheckout sampleCheckoutEnv ⟨.proMonthly, some "test@example.com",
      some 1, none, "XTS", 10, "web", none, none⟩ =
     createCheckout sampleCheckoutEnv ⟨.proMonthly, some "test@example.com",
      some 1, none, "XTS", 999, "web", none, none⟩) :=
  ⟨by decide,
   (createCheckout_unsupported_currency_ignores_price sampleCheckoutEnv
     .proMonthly (some "test@example.com") (some 1) none "XTS" 10 999
     "web" none none (by decide)).1⟩

/-- C3 (code behaviour): for the explicitly unsupported SKU
`pro-perpetual` and a supported currency, `createCheckout` raises no
error at all: it returns a checkout URL carrying the sentinel product id
`-1`, with no error report and no rate fetch, contradicting the claim
that it fails with a configuration error before any network or crypto
work. -/
theorem createCheckout_perpetual_sku_not_rejected
    (env : CheckoutEnv) (email : Option String) (quantity : Option Nat)
    (countryCode : Option String) (currency : String) (price : Rat)
    (source : String) (returnUrl passthrough : Option String)
    (hcur : currency ∈ PAYPRO_CURRENCIES) :
    ∃ tailParams,
      createCheckout env ⟨SKU.proPerpetual, email, quantity, countryCode,
        currency, price, source, returnUrl, passthrough⟩ =
      (.ok (env.apiBaseUrl ++ "/checkout?" ++ formEncodeParams
        (checkoutQueryBase ⟨SKU.proPerpetual, email, quantity, countryCode,
          currency, price, source, returnUrl, passthrough⟩ ++
         [("products[1][id]", "-1")] ++ tailParams)), []) := by
  refine ⟨(match quantity with
    | some q => if q ≠ 0 then [("products[1][qty]", toString q)] else []
    | none => []) ++
    [("products[1][data]", base64String (aesCbcEncrypt env.paramKey
      env.paramIv (strBytes (productParamsPlaintext currency
        (jsNumberToString price)))))], ?_⟩
  unfold createCheckout
  rw [if_pos (contains_currency_true hcur)]
  unfold checkoutUrl
  dsimp only
  rw [show toString (SKU_TO_PAYPRO_ID SKU.proPerpetual) = "-1" from rfl]
  rw [List.append_assoc (checkoutQueryBase _ ++ _)]

/-- Witness for C3 at a concrete environment and options. -/
theorem createCheckout_perpetual_sku_not_rejected_witness :
    "USD" ∈ PAYPRO_CURRENCIES ∧
    (∃ tailParams,
      createCheckout sampleCheckoutEnv sampleCheckoutOptionsPerpetual =
      (.ok (sampleCheckoutEnv.apiBaseUrl ++ "/checkout?" ++
        formEncodeParams (checkoutQueryBase sampleCheckoutOptionsPerpetual ++
          [("products[1][id]", "-1")] ++ tailParams)), [])) :=
  ⟨by decide,
   createCheckout_perpetual_sku_not_rejected sampleCheckoutEnv
     (some "test@example.com") (some 1) none "USD" 10 "web" none none
     (by decide)⟩

/-! ## Subscription cancellation (claim C7) -/

/-- C7: `cancelSubscription` raises the transport error when the HTTP
call returns a status of 400 or greater, raises the distinct
provider-rejection error when it returns 200 with `isSuccess` false, and
completes without error when it returns 200 with `isSuccess` true. -/
theorem cancelSubscription_outcomes
    (transport : CancelRequest → HttpResponse)
    (accountId apiKey subscriptionId : String) (r : HttpResponse)
    (hr : transport ⟨accountId, apiKey, "API cancellation", true,
      subscriptionId⟩ = r) :
    (400 ≤ r.status →
      cancelSubscription transport accountId apiKey subscriptionId =
        .error (.transport r.status)) ∧
    (r.status = 200 → r.body.isSuccess = false →
      cancelSubscription transport accountId apiKey subscriptionId =
        .error .providerRejection) ∧
    (r.status = 200 → r.body.isSuccess = true →
      cancelSubscription transport accountId apiKey subscriptionId =
        .ok ()) ∧
    (∀ st : Nat, CancelError.transport st ≠ CancelError.providerRejection) := by
  unfold cancelSubscription
  rw [hr]
  refine ⟨?_, ?_, ?_, fun st h => by cases h⟩
  · intro h400
    have hok : responseOk r.status = false := by
      unfold responseOk
      simp only [Bool.and_eq_false_iff, decide_eq_false_iff_not]
      omega
    simp [hok]
  · intro h200 hfail
    have hok : responseOk r.status = true := by
      unfold responseOk
      rw [h200]
      decide
    simp [hok, hfail]
  · intro h200 hsucc
    have hok : responseOk r.status = true := by
      unfold responseOk
      rw [h200]
      decide
    simp [hok, hsucc]

/-- Witness for C7 at three concrete transports: a 500 response, a 200
response with `isSuccess` false, and a 200 response with `isSuccess`
true. -/
theorem cancelSubscription_outcomes_witness :
    (400 ≤ (500 : Nat)) ∧
    cancelSubscription (fun _ => ⟨500, ⟨true, []⟩⟩) "acct" "key" "123" =
      .error (.transport 500) ∧
    cancelSubscription (fun _ => ⟨200, ⟨false, ["x"]⟩⟩) "acct" "key" "123" =
      .error .providerRejection ∧
    cancelSubscription (fun _ => ⟨200, ⟨true, []⟩⟩) "acct" "key" "123" =
      .ok () :=
  ⟨by norm_num,
   (cancelSubscription_outcomes (fun _ => ⟨500, ⟨true, []⟩⟩) "acct" "key"
     "123" ⟨500, ⟨true, []⟩⟩ rfl).1 (by norm_num),
   (cancelSubscription_outcomes (fun _ => ⟨200, ⟨false, ["x"]⟩⟩) "acct"
     "key" "123" ⟨200, ⟨false, ["x"]⟩⟩ rfl).2.1 rfl rfl,
   (cancelSubscription_outcomes (fun _ => ⟨200, ⟨true, []⟩⟩) "acct" "key"
     "123" ⟨200, ⟨true, []⟩⟩ rfl).2.2.1 rfl rfl⟩

end PayPro
